import Mathlib

/-!
Verification development for the BadgerDB-style B+Tree index in
Btree-SP-23/Btree/src (btree.h, btree.cpp).

The INTEGER code paths are embedded in full as executable Lean functions
over a state record; the array-manipulation kernels
(insertKeyRidToKeyRidArray, insertKeyPageIdToKeyPageIdArray, the sort used
by leaf splits) are embedded generically over a linear order so that the
structurally identical DOUBLE branch can be examined as well (DOUBLE keys
are modelled by rationals: the concrete values used only go through
comparisons, which coincide with exact arithmetic for them).

Node pages are modelled as lists holding the visible portion of the
on-page arrays (indices below the node's len field); the buffer manager is
external to the repository (buffer.h is not part of src) and is modelled
from the spec's interface as a multiset of pinned page ids, where unpin
removes one occurrence and a swallowed unpin error on an unpinned page is
a no-op.  Stack arrays that the source reads without writing first
(the temp arrays of insertNonLeaf) are modelled by explicit
"garbage" valuation parameters, universally quantified in theorems.
-/

namespace badgerdb

/-- Record identifier, a (page_number, slot_number) pair as used by the
source through RecordId. -/
structure RecordId where
  page_number : Int
  slot_number : Int
deriving DecidableEq, Repr

/-- Scan operator enumeration from btree.h. -/
inductive Operator
  | LT
  | LTE
  | GTE
  | GT
deriving DecidableEq, Repr

/-- INVALID_PAGE sentinel (INT_MIN in btree.h). -/
def INVALID_PAGE : Int := -2147483648

/-- INVALID_KEY_INDEX sentinel (INT_MIN in btree.h). -/
def INVALID_KEY_INDEX : Int := -2147483648

/-- INT_MAX, used by insertRecursive as the virtual key after the last key. -/
def INT_MAX : Int := 2147483647

/-- Default entry used when reading a key/rid slot (models an out-of-range
array read; theorems carry range hypotheses so it is never relied upon). -/
def dfltPair : Int × RecordId := (0, ⟨0, 0⟩)

/-- The source's insertKeyRidToKeyRidArray: find the first slot whose key
is >= the new key, insert there (shifting the tail), else append.  The
len = 0 special case of the source coincides with the nil case.  Keys and
rids travel in lockstep, modelled as a list of pairs. -/
def insertKeyRidToKeyRidArray {K : Type} [LinearOrder K] :
    List (K × RecordId) → K → RecordId → List (K × RecordId)
  | [], key, rid => [(key, rid)]
  | p :: t, key, rid =>
      if key ≤ p.1 then (key, rid) :: p :: t
      else p :: insertKeyRidToKeyRidArray t key rid

/-- The RIDKeyPair operator< of btree.h: compare keys, ties broken by
rid.page_number. -/
def pairLtb {K : Type} [LinearOrder K] (a b : K × RecordId) : Bool :=
  if a.1 ≠ b.1 then decide (a.1 < b.1)
  else decide (a.2.page_number < b.2.page_number)

/-- Non-strict companion of pairLtb, used to state sortedness. -/
def pairLe {K : Type} [LinearOrder K] (a b : K × RecordId) : Prop :=
  a.1 < b.1 ∨ (a.1 = b.1 ∧ a.2.page_number ≤ b.2.page_number)

/-- Ordered insertion used to model std::sort with the RIDKeyPair
comparator (the sorted result is unique when no two entries share both key
and rid.page_number). -/
def sortedInsertPair {K : Type} [LinearOrder K] (x : K × RecordId) :
    List (K × RecordId) → List (K × RecordId)
  | [] => [x]
  | y :: t => if pairLtb y x then y :: sortedInsertPair x t else x :: y :: t

/-- Model of sort(ridKeyPairVec.begin(), ridKeyPairVec.end()). -/
def sortPairs {K : Type} [LinearOrder K] (l : List (K × RecordId)) :
    List (K × RecordId) :=
  l.foldr sortedInsertPair []

/-- The loops of the split code that re-insert a range of sorted entries
into a fresh node one by one via insertKeyRidToKeyRidArray. -/
def buildNode {K : Type} [LinearOrder K] (l : List (K × RecordId)) :
    List (K × RecordId) :=
  l.foldl (fun acc p => insertKeyRidToKeyRidArray acc p.1 p.2) []

/-- First index satisfying a predicate (models the source's linear search
loops with break). -/
def findFirstIdx {α : Type} (p : α → Bool) : List α → Option Nat
  | [] => none
  | a :: t => if p a then some 0 else (findFirstIdx p t).map (· + 1)

/-- Insertion at a position, shifting the tail right (models the in-array
shift loops). -/
def insertAt {α : Type} : List α → Nat → α → List α
  | l, 0, a => a :: l
  | [], _ + 1, a => [a]
  | x :: t, n + 1, a => x :: insertAt t n a

/-- The source's insertKeyPageIdToKeyPageIdArray: the key goes to the
lower-bound slot i, the page id to slot i + 1 of the child array; append
to both when no key is >= the new key. -/
def insertKeyPageIdToKeyPageIdArray (K : List Int) (P : List Int)
    (key : Int) (pageNo : Int) : List Int × List Int :=
  match findFirstIdx (fun x => decide (key ≤ x)) K with
  | some i => (insertAt K i key, insertAt P (i + 1) pageNo)
  | none => (K ++ [key], P ++ [pageNo])

/-! ### Basic lemmas about the array kernels -/

theorem insertKeyRidToKeyRidArray_perm {K : Type} [LinearOrder K]
    (l : List (K × RecordId)) (k : K) (r : RecordId) :
    (insertKeyRidToKeyRidArray l k r).Perm ((k, r) :: l) := by
  induction l with
  | nil => simp [insertKeyRidToKeyRidArray]
  | cons p t ih =>
      by_cases h : k ≤ p.1
      · simp [insertKeyRidToKeyRidArray, h]
      · simp only [insertKeyRidToKeyRidArray, if_neg h]
        exact (List.Perm.cons p ih).trans (List.Perm.swap _ _ _)

/-- Key ordering on entries. -/
def keyLe {K : Type} [LinearOrder K] (a b : K × RecordId) : Prop :=
  a.1 ≤ b.1

theorem insertKeyRidToKeyRidArray_sorted {K : Type} [LinearOrder K]
    (l : List (K × RecordId)) (k : K) (r : RecordId)
    (h : l.Pairwise keyLe) :
    (insertKeyRidToKeyRidArray l k r).Pairwise keyLe := by
  induction l with
  | nil => simp [insertKeyRidToKeyRidArray, keyLe]
  | cons p t ih =>
      rcases List.pairwise_cons.mp h with ⟨hp, ht⟩
      by_cases hk : k ≤ p.1
      · simp only [insertKeyRidToKeyRidArray, if_pos hk]
        refine List.pairwise_cons.mpr ⟨?_, List.pairwise_cons.mpr ⟨hp, ht⟩⟩
        intro x hx
        rcases List.mem_cons.mp hx with hx1 | hx2
        · subst hx1; exact hk
        · exact le_trans hk (hp x hx2)
      · simp only [insertKeyRidToKeyRidArray, if_neg hk]
        refine List.pairwise_cons.mpr ⟨?_, ih ht⟩
        intro x hx
        have hmem := (insertKeyRidToKeyRidArray_perm t k r).mem_iff.mp hx
        rcases List.mem_cons.mp hmem with hx1 | hx2
        · subst hx1
          exact le_of_lt (lt_of_not_le hk)
        · exact hp x hx2

theorem buildNode_perm {K : Type} [LinearOrder K] (l : List (K × RecordId)) :
    (buildNode l).Perm l := by
  suffices h : ∀ (l acc : List (K × RecordId)),
      (l.foldl (fun acc p => insertKeyRidToKeyRidArray acc p.1 p.2) acc).Perm
        (acc ++ l) by
    simpa using h l []
  intro l
  induction l with
  | nil => intro acc; simp
  | cons p t ih =>
      intro acc
      have h1 : ((p :: t).foldl (fun acc p => insertKeyRidToKeyRidArray acc p.1 p.2) acc) =
          t.foldl (fun acc p => insertKeyRidToKeyRidArray acc p.1 p.2)
            (insertKeyRidToKeyRidArray acc p.1 p.2) := rfl
      rw [h1]
      have h2 := ih (insertKeyRidToKeyRidArray acc p.1 p.2)
      have h3 : (insertKeyRidToKeyRidArray acc p.1 p.2 ++ t).Perm ((p :: acc) ++ t) :=
        (insertKeyRidToKeyRidArray_perm acc p.1 p.2).append_right t
      have h4 : ((p :: acc) ++ t).Perm (acc ++ p :: t) := by
        simpa using (@List.perm_middle _ p acc t).symm
      exact h2.trans (h3.trans h4)

theorem buildNode_sorted {K : Type} [LinearOrder K] (l : List (K × RecordId)) :
    (buildNode l).Pairwise keyLe := by
  suffices h : ∀ (l acc : List (K × RecordId)), acc.Pairwise keyLe →
      (l.foldl (fun acc p => insertKeyRidToKeyRidArray acc p.1 p.2) acc).Pairwise keyLe by
    exact h l [] (by simp)
  intro l
  induction l with
  | nil => intro acc hacc; simpa using hacc
  | cons p t ih =>
      intro acc hacc
      exact ih _ (insertKeyRidToKeyRidArray_sorted acc p.1 p.2 hacc)

theorem buildNode_length {K : Type} [LinearOrder K] (l : List (K × RecordId)) :
    (buildNode l).length = l.length :=
  (buildNode_perm l).length_eq

theorem sortedInsertPair_perm {K : Type} [LinearOrder K]
    (x : K × RecordId) (l : List (K × RecordId)) :
    (sortedInsertPair x l).Perm (x :: l) := by
  induction l with
  | nil => simp [sortedInsertPair]
  | cons y t ih =>
      by_cases h : pairLtb y x
      · simp only [sortedInsertPair, if_pos h]
        exact (List.Perm.cons y ih).trans (List.Perm.swap _ _ _)
      · simp [sortedInsertPair, if_neg h]

theorem sortPairs_perm {K : Type} [LinearOrder K] (l : List (K × RecordId)) :
    (sortPairs l).Perm l := by
  induction l with
  | nil => simp [sortPairs]
  | cons x t ih =>
      have h1 : sortPairs (x :: t) = sortedInsertPair x (sortPairs t) := rfl
      rw [h1]
      exact (sortedInsertPair_perm x (sortPairs t)).trans (List.Perm.cons x ih)

theorem pairLtb_false_iff {K : Type} [LinearOrder K] (a b : K × RecordId) :
    pairLtb b a = false ↔ pairLe a b := by
  by_cases he : b.1 = a.1
  · have h1 : pairLtb b a = decide (b.2.page_number < a.2.page_number) := by
      simp [pairLtb, he]
    rw [h1]
    constructor
    · intro hf
      have := of_decide_eq_false hf
      exact Or.inr ⟨he.symm, le_of_not_lt this⟩
    · intro hor
      rcases hor with hlt | ⟨_, hle⟩
      · exact absurd hlt (by simp [he])
      · exact decide_eq_false (not_lt_of_le hle)
  · have h1 : pairLtb b a = decide (b.1 < a.1) := by
      simp [pairLtb, he]
    rw [h1]
    constructor
    · intro hf
      have := of_decide_eq_false hf
      exact Or.inl (lt_of_le_of_ne (le_of_not_lt this) (fun hc => he hc.symm))
    · intro hor
      rcases hor with hlt | ⟨heq, _⟩
      · exact decide_eq_false (not_lt_of_le (le_of_lt hlt))
      · exact absurd heq.symm he

theorem pairLtb_true_le {K : Type} [LinearOrder K] (a b : K × RecordId)
    (h : pairLtb a b = true) : pairLe a b := by
  by_cases he : a.1 = b.1
  · have h1 : pairLtb a b = decide (a.2.page_number < b.2.page_number) := by
      simp [pairLtb, he]
    rw [h1] at h
    exact Or.inr ⟨he, le_of_lt (of_decide_eq_true h)⟩
  · have h1 : pairLtb a b = decide (a.1 < b.1) := by
      simp [pairLtb, he]
    rw [h1] at h
    exact Or.inl (of_decide_eq_true h)

theorem pairLe_trans {K : Type} [LinearOrder K] (a b c : K × RecordId)
    (h1 : pairLe a b) (h2 : pairLe b c) : pairLe a c := by
  rcases h1 with h1 | ⟨h1e, h1p⟩
  · rcases h2 with h2 | ⟨h2e, _⟩
    · exact Or.inl (lt_trans h1 h2)
    · exact Or.inl (h2e ▸ h1)
  · rcases h2 with h2 | ⟨h2e, h2p⟩
    · exact Or.inl (h1e ▸ h2)
    · exact Or.inr ⟨h1e.trans h2e, le_trans h1p h2p⟩

theorem sortedInsertPair_sorted {K : Type} [LinearOrder K]
    (x : K × RecordId) (l : List (K × RecordId))
    (h : l.Pairwise pairLe) : (sortedInsertPair x l).Pairwise pairLe := by
  induction l with
  | nil => simp [sortedInsertPair]
  | cons y t ih =>
      rcases List.pairwise_cons.mp h with ⟨hy, ht⟩
      by_cases hlt : pairLtb y x
      · simp only [sortedInsertPair, if_pos hlt]
        refine List.pairwise_cons.mpr ⟨?_, ih ht⟩
        intro z hz
        have hmem := (sortedInsertPair_perm x t).mem_iff.mp hz
        rcases List.mem_cons.mp hmem with hz1 | hz2
        · subst hz1; exact pairLtb_true_le y z hlt
        · exact hy z hz2
      · simp only [sortedInsertPair, if_neg hlt]
        have hxy : pairLe x y := (pairLtb_false_iff x y).mp (by simpa using hlt)
        refine List.pairwise_cons.mpr ⟨?_, List.pairwise_cons.mpr ⟨hy, ht⟩⟩
        intro z hz
        rcases List.mem_cons.mp hz with hz1 | hz2
        · simpa [hz1] using hxy
        · exact pairLe_trans x y z hxy (hy z hz2)

theorem sortPairs_sorted {K : Type} [LinearOrder K] (l : List (K × RecordId)) :
    (sortPairs l).Pairwise pairLe := by
  induction l with
  | nil => simp [sortPairs]
  | cons x t ih => exact sortedInsertPair_sorted x (sortPairs t) ih

theorem sortPairs_sorted_key {K : Type} [LinearOrder K] (l : List (K × RecordId)) :
    (sortPairs l).Pairwise keyLe := by
  refine (sortPairs_sorted l).imp ?_
  intro a b hab
  rcases hab with h | ⟨h, _⟩
  · exact le_of_lt h
  · exact le_of_eq h

/-! ### Lemmas about findFirstIdx -/

theorem findFirstIdx_some_lt {α : Type} (p : α → Bool) :
    ∀ (l : List α) (i : Nat), findFirstIdx p l = some i → i < l.length := by
  intro l
  induction l with
  | nil => intro i h; simp [findFirstIdx] at h
  | cons a t ih =>
      intro i h
      by_cases hp : p a = true
      · simp only [findFirstIdx, if_pos hp, Option.some.injEq] at h
        subst h
        simp
      · simp only [findFirstIdx, if_neg hp, Option.map_eq_some'] at h
        rcases h with ⟨j, hj, rfl⟩
        have := ih j hj
        simp only [List.length_cons]
        omega

theorem findFirstIdx_some_true {α : Type} (p : α → Bool) (d : α) :
    ∀ (l : List α) (i : Nat), findFirstIdx p l = some i → p (l.getD i d) = true := by
  intro l
  induction l with
  | nil => intro i h; simp [findFirstIdx] at h
  | cons a t ih =>
      intro i h
      by_cases hp : p a = true
      · simp only [findFirstIdx, if_pos hp, Option.some.injEq] at h
        subst h
        simpa using hp
      · simp only [findFirstIdx, if_neg hp, Option.map_eq_some'] at h
        rcases h with ⟨j, hj, rfl⟩
        simpa using ih j hj

theorem findFirstIdx_some_before {α : Type} (p : α → Bool) (d : α) :
    ∀ (l : List α) (i : Nat), findFirstIdx p l = some i →
      ∀ j, j < i → p (l.getD j d) = false := by
  intro l
  induction l with
  | nil => intro i h; simp [findFirstIdx] at h
  | cons a t ih =>
      intro i h j hj
      by_cases hp : p a = true
      · simp only [findFirstIdx, if_pos hp, Option.some.injEq] at h
        omega
      · simp only [findFirstIdx, if_neg hp, Option.map_eq_some'] at h
        rcases h with ⟨m, hm, rfl⟩
        cases j with
        | zero => simpa using hp
        | succ j' =>
            have := ih m hm j' (by omega)
            simpa using this

theorem findFirstIdx_isSome_of_mem {α : Type} (p : α → Bool) :
    ∀ (l : List α) (x : α), x ∈ l → p x = true →
      ∃ i, findFirstIdx p l = some i := by
  intro l
  induction l with
  | nil => intro x hx; simp at hx
  | cons a t ih =>
      intro x hx hpx
      by_cases hp : p a = true
      · exact ⟨0, by simp [findFirstIdx, hp]⟩
      · rcases List.mem_cons.mp hx with hx1 | hx2
        · subst hx1; exact absurd hpx hp
        · rcases ih x hx2 hpx with ⟨i, hi⟩
          exact ⟨i + 1, by simp [findFirstIdx, hp, hi]⟩

theorem mem_drop_of_findFirstIdx {K : Type} [LinearOrder K]
    (k : K) (r : RecordId) :
    ∀ (l : List (K × RecordId)) (i : Nat),
      findFirstIdx (fun p => decide (k ≤ p.1)) l = some i →
      (k, r) ∈ l → (k, r) ∈ l.drop i := by
  intro l
  induction l with
  | nil => intro i h; simp [findFirstIdx] at h
  | cons a t ih =>
      intro i h hm
      by_cases hp : k ≤ a.1
      · have hpd : (fun p : K × RecordId => decide (k ≤ p.1)) a = true := by
          simpa using hp
        simp only [findFirstIdx, if_pos hpd, Option.some.injEq] at h
        subst h
        simpa using hm
      · have hpd : ¬ ((fun p : K × RecordId => decide (k ≤ p.1)) a = true) := by
          simpa using hp
        simp only [findFirstIdx, if_neg hpd, Option.map_eq_some'] at h
        rcases h with ⟨j, hj, rfl⟩
        rcases List.mem_cons.mp hm with hm1 | hm2
        · exfalso
          apply hp
          have := congrArg Prod.fst hm1
          simp at this
          simp [this]
        · simpa using ih j hj hm2

theorem mem_takeWhile_of_sorted {K : Type} [LinearOrder K]
    (k : K) (r : RecordId) :
    ∀ (l : List (K × RecordId)), l.Pairwise keyLe → (k, r) ∈ l →
      (k, r) ∈ l.takeWhile (fun p => decide (p.1 ≤ k)) := by
  intro l
  induction l with
  | nil => intro _ hm; simp at hm
  | cons a t ih =>
      intro hs hm
      rcases List.pairwise_cons.mp hs with ⟨ha, ht⟩
      rcases List.mem_cons.mp hm with hm1 | hm2
      · subst hm1
        simp [List.takeWhile]
      · have hak : a.1 ≤ k := ha (k, r) hm2
        have h1 : (a :: t).takeWhile (fun p : K × RecordId => decide (p.1 ≤ k)) =
            a :: t.takeWhile (fun p : K × RecordId => decide (p.1 ≤ k)) := by
          simp [List.takeWhile, hak]
        rw [h1]
        exact List.mem_cons_of_mem a (ih ht hm2)

/-! ### Pages, nodes and index state

A node page is either a leaf (key/rid entries plus rightSibPageNo) or an
internal node (level, keyArray, pageNoArray); the lists hold the visible
portion of the fixed-size on-page arrays, i.e. indices below the node's
len field (len + 1 child pointers for internal nodes). -/

inductive NodeInt
  | leaf (entries : List (Int × RecordId)) (rightSibPageNo : Int)
  | internal (level : Int) (keyArray : List Int) (pageNoArray : List Int)
deriving DecidableEq, Repr

/-- The observable state of a BTreeIndex over INTEGER keys together with
the page contents of its file and the buffer-manager pin multiset.
Fields mirror the data members of class BTreeIndex in btree.h. -/
structure BTreeState where
  pages : List (Int × NodeInt)
  nextFreePage : Int
  rootPageNum : Int
  isRootLeaf : Bool
  scanExecuting : Bool
  nextEntry : Int
  currentPageNum : Int
  currentPageData : NodeInt
  lowOp : Operator
  highOp : Operator
  lowValInt : Int
  highValInt : Int
  leafOccupancy : Int
  nodeOccupancy : Int
  pins : List Int
deriving DecidableEq, Repr

def assocSet : List (Int × NodeInt) → Int → NodeInt → List (Int × NodeInt)
  | [], p, n => [(p, n)]
  | (q, m) :: t, p, n => if q = p then (p, n) :: t else (q, m) :: assocSet t p n

/-- Content of a page (pages that were never written read as an empty
leaf; theorems only look up pages that exist). -/
def lookupNode (st : BTreeState) (p : Int) : NodeInt :=
  (st.pages.lookup p).getD (.leaf [] INVALID_PAGE)

def setPage (st : BTreeState) (p : Int) (n : NodeInt) : BTreeState :=
  { st with pages := assocSet st.pages p n }

/-- Modelled from the spec: the buffer manager (external to src) pins a
page on read. -/
def readPage (st : BTreeState) (p : Int) : BTreeState :=
  { st with pins := p :: st.pins }

/-- Modelled from the spec: unpin removes one pin; an unpin error on an
unpinned page (which the source swallows on its cleanup paths) is a
no-op here. -/
def bufUnpin (st : BTreeState) (p : Int) : BTreeState :=
  { st with pins := st.pins.erase p }

/-- Modelled from the spec: allocPage returns a fresh page id, pinned. -/
def allocPage (st : BTreeState) : Int × BTreeState :=
  (st.nextFreePage,
    { st with nextFreePage := st.nextFreePage + 1,
              pins := st.nextFreePage :: st.pins })

/-! ### The insertion engine (INTEGER branch of btree.cpp / btree.h) -/

/-- Core array manipulation of the INTEGER leaf split (btree.h insertLeaf,
split subcase): gather entries plus the new one, sort with the RIDKeyPair
comparator, take middleKeyIndex = size / 2, re-insert the upper half into
the new node and the lower half into the old node one by one. -/
def leafSplitCoreInt (E : List (Int × RecordId)) (key : Int) (rid : RecordId) :
    List (Int × RecordId) × List (Int × RecordId) × Int :=
  let vec := sortPairs (E ++ [(key, rid)])
  let middleKeyIndex := vec.length / 2
  let middleKey := (vec.getD middleKeyIndex dfltPair).1
  let newNode := buildNode (vec.drop middleKeyIndex)
  let leftNode := buildNode (vec.take middleKeyIndex)
  (leftNode, newNode, middleKey)

/-- btree.h insertLeaf, INTEGER branch.  Returns the new state plus the
(isSplit, splitKey, splitRightNodePageId) out-parameters; when no split
happens the source leaves the splitKey out-parameter unwritten and the
caller never reads it, modelled by returning 0. -/
def insertLeaf (st : BTreeState) (pageNum : Int) (key : Int) (rid : RecordId) :
    BTreeState × Bool × Int × Int :=
  let st1 := readPage st pageNum
  match lookupNode st1 pageNum with
  | .leaf E sib =>
      if (E.length : Int) < st1.leafOccupancy then
        let st2 := setPage st1 pageNum
          (.leaf (insertKeyRidToKeyRidArray E key rid) sib)
        (bufUnpin st2 pageNum, false, 0, 0)
      else
        let res := leafSplitCoreInt E key rid
        let alloc := allocPage st1
        let newPageNum := alloc.1
        let st2 := setPage alloc.2 newPageNum (.leaf res.2.1 sib)
        let st3 := setPage st2 pageNum (.leaf res.1 newPageNum)
        let st4 := bufUnpin (bufUnpin st3 newPageNum) pageNum
        (st4, true, res.2.2, newPageNum)
  | .internal _ _ _ => (bufUnpin st1 pageNum, false, 0, 0)

/-- btree.h insertNonLeaf, INTEGER branch.  The source's stack arrays
tempKeyArray / tempPageNoArray are only written at positions
nextPageIndex (resp. nextPageIndex + 1) and above; positions below hold
indeterminate stack contents, modelled by the garbage valuations gK, gP.
In the split subcase the source assigns curNonLeafNode->len =
splitKeyIndex before the move loop whose bound reads
curNonLeafNode->len + 1, so the loop body runs zero times; afterwards
only newNode->pageNoArray[len - splitKeyIndex] is written. -/
def insertNonLeaf (gK gP : Nat → Int) (st : BTreeState) (nodePageNumber : Int)
    (nextPageIndex : Nat) (middleKey : Int) (splitRightNodePageId : Int) :
    BTreeState × Bool × Int × Int :=
  let st1 := readPage st nodePageNumber
  match lookupNode st1 nodePageNumber with
  | .internal level K P =>
      if (K.length : Int) < st1.nodeOccupancy then
        let res := insertKeyPageIdToKeyPageIdArray K P middleKey splitRightNodePageId
        let st2 := setPage st1 nodePageNumber (.internal level res.1 res.2)
        (bufUnpin st2 nodePageNumber, false, 0, splitRightNodePageId)
      else
        let N := K.length
        let tempKey : Nat → Int := fun i =>
          if i = nextPageIndex then middleKey
          else if nextPageIndex < i then K.getD (i - 1) (gK i)
          else gK i
        let tempPage : Nat → Int := fun i =>
          if i = nextPageIndex + 1 then splitRightNodePageId
          else if nextPageIndex + 1 < i then P.getD (i - 1) (gP i)
          else gP i
        let splitKeyIndex := N / 2
        let newSplitKey := tempKey splitKeyIndex
        let alloc := allocPage st1
        let newPageNum := alloc.1
        let leftKeys := (List.range splitKeyIndex).map tempKey
        let leftPages := (List.range (splitKeyIndex + 1)).map
          (fun j => if j = splitKeyIndex then splitRightNodePageId
                    else P.getD j (gP j))
        let curLenAfter := splitKeyIndex
        let moveCount := (curLenAfter + 1) - (splitKeyIndex + 1)
        let rightLen := moveCount
        let rightKeys := (List.range rightLen).map
          (fun j => tempKey (splitKeyIndex + 1 + j))
        let rightPages := (List.range (rightLen + 1)).map
          (fun j => if j = curLenAfter - splitKeyIndex then tempPage (curLenAfter + 1)
                    else tempPage (splitKeyIndex + 1 + j))
        let st2 := setPage alloc.2 newPageNum (.internal level rightKeys rightPages)
        let st3 := setPage st2 nodePageNumber (.internal level leftKeys leftPages)
        let st4 := bufUnpin (bufUnpin st3 nodePageNumber) newPageNum
        (st4, true, newSplitKey, newPageNum)
  | .leaf _ _ => (bufUnpin st1 nodePageNumber, false, 0, splitRightNodePageId)

/-- The child-routing loop at the top of insertRecursive (INTEGER): walk
the keys with nextKey = keyArray[i + 1], or INT_MAX for the last key;
routes to child 0 when the key is below the first separator, to child
i + 1 when keyArray[i] <= key < nextKey, and finds no child otherwise. -/
def findRouteAux (key : Int) : List Int → Nat → Option Nat
  | [], _ => none
  | [a], i =>
      if i = 0 ∧ key < a then some 0
      else if a ≤ key ∧ key < INT_MAX then some (i + 1)
      else none
  | a :: b :: t, i =>
      if i = 0 ∧ key < a then some 0
      else if a ≤ key ∧ key < b then some (i + 1)
      else findRouteAux key (b :: t) (i + 1)

def findRoute (K : List Int) (key : Int) : Option Nat := findRouteAux key K 0

/-- btree.cpp insertRecursive, INTEGER branch, with fuel for the
recursion depth (the source recurses along a root-to-leaf path).  Returns
state plus (isSplit, splitKey, splitRightNodePageId). -/
def insertRecursive (gK gP : Nat → Int) :
    Nat → BTreeState → Int → Int → RecordId → BTreeState × Bool × Int × Int
  | 0, st, _, _, _ => (st, false, 0, 0)
  | fuel + 1, st, nodePageNumber, key, rid =>
      let st1 := readPage st nodePageNumber
      match lookupNode st1 nodePageNumber with
      | .internal level K P =>
          match findRoute K key with
          | none => (bufUnpin st1 nodePageNumber, false, 0, 0)
          | some idx =>
              let nextPage := P.getD idx INVALID_PAGE
              let res :=
                if level ≠ 0 then insertLeaf st1 nextPage key rid
                else insertRecursive gK gP fuel st1 nextPage key rid
              let st2 := res.1
              let isSplit := res.2.1
              let splitKey := res.2.2.1
              let splitRight := res.2.2.2
              if isSplit then
                let res2 := insertNonLeaf gK gP st2 nodePageNumber idx splitKey
                  splitRight
                let st3 := res2.1
                let isSplit2 := res2.2.1
                let splitKey2 := res2.2.2.1
                let splitRight2 := res2.2.2.2
                if isSplit2 ∧ nodePageNumber = st3.rootPageNum then
                  let st4 := bufUnpin st3 st3.rootPageNum
                  let alloc := allocPage st4
                  let newRootPageNum := alloc.1
                  let st5 := setPage alloc.2 newRootPageNum
                    (.internal 0 [splitKey2] [nodePageNumber, splitRight2])
                  let st6 := { st5 with rootPageNum := newRootPageNum }
                  let st7 := bufUnpin st6 st6.rootPageNum
                  (bufUnpin st7 nodePageNumber, isSplit2, splitKey2, splitRight2)
                else (bufUnpin st3 nodePageNumber, isSplit2, splitKey2, splitRight2)
              else (bufUnpin st2 nodePageNumber, false, splitKey, splitRight)
      | .leaf _ _ => (bufUnpin st1 nodePageNumber, false, 0, 0)

/-- btree.cpp insertEntry, INTEGER branch. -/
def insertEntry (gK gP : Nat → Int) (fuel : Nat) (st : BTreeState)
    (key : Int) (rid : RecordId) : BTreeState :=
  let rootPageId := st.rootPageNum
  let st1 := readPage st rootPageId
  if st1.isRootLeaf then
    match lookupNode st1 rootPageId with
    | .leaf E sib =>
        if (E.length : Int) < st1.leafOccupancy then
          bufUnpin
            (setPage st1 rootPageId
              (.leaf (insertKeyRidToKeyRidArray E key rid) sib)) rootPageId
        else
          let st2 := { st1 with isRootLeaf := false }
          let vec := sortPairs (E ++ [(key, rid)])
          let middleKeyIndex := vec.length / 2
          let middleKey := (vec.getD middleKeyIndex dfltPair).1
          let alloc := allocPage st2
          let newPageNum := alloc.1
          let newLeaf := buildNode (vec.drop middleKeyIndex)
          let st3 := setPage alloc.2 newPageNum (.leaf newLeaf INVALID_PAGE)
          let oldLeaf := buildNode (vec.take middleKeyIndex)
          let st4 := setPage st3 rootPageId (.leaf oldLeaf newPageNum)
          let alloc2 := allocPage st4
          let newRootPageNum := alloc2.1
          let st5 := setPage alloc2.2 newRootPageNum
            (.internal 1 [middleKey] [rootPageId, newPageNum])
          let st6 := { st5 with rootPageNum := newRootPageNum }
          bufUnpin (bufUnpin (bufUnpin st6 rootPageId) newPageNum) newRootPageNum
    | .internal _ _ _ => bufUnpin st1 rootPageId
  else
    let res := insertRecursive gK gP fuel st1 rootPageId key rid
    bufUnpin res.1 rootPageId

/-! ### The scan cursor (INTEGER branch of btree.cpp) -/

inductive ScanErr
  | BadOpcodes
  | BadScanrange
  | NoSuchKeyFound
deriving DecidableEq, Repr

inductive ScanOutcome
  | ok
  | err (e : ScanErr)
  | stuck
deriving DecidableEq, Repr

inductive NextErr
  | ScanNotInit
  | IndexScanCompleted
  | Stuck
deriving DecidableEq, Repr

instance {ε α : Type} [DecidableEq ε] [DecidableEq α] :
    DecidableEq (Except ε α) := fun x y =>
  match x, y with
  | .ok a, .ok b =>
      if h : a = b then isTrue (by rw [h])
      else isFalse (by intro hc; cases hc; exact h rfl)
  | .ok _, .error _ => isFalse (by intro h; cases h)
  | .error _, .ok _ => isFalse (by intro h; cases h)
  | .error e, .error f =>
      if h : e = f then isTrue (by rw [h])
      else isFalse (by intro hc; cases hc; exact h rfl)

/-- btree.cpp endScan; the Bool records whether it succeeded (false models
the ScanNotInitializedException path). -/
def endScan (st : BTreeState) : BTreeState × Bool :=
  if st.scanExecuting then
    (bufUnpin { st with scanExecuting := false, nextEntry := INVALID_KEY_INDEX }
      st.currentPageNum, true)
  else (st, false)

/-- The linear search of a leaf for the first entry satisfying the low
predicate (the loops at btree.cpp lines 817-828 and 885-898); for the two
low operators the source checks key > low (GT) or key >= low (GTE), and
never sets nextEntry for the other operators. -/
def scanLowIdx (op : Operator) (low : Int) (E : List (Int × RecordId)) :
    Option Nat :=
  findFirstIdx (fun p =>
    match op with
    | .GT => decide (low < p.1)
    | .GTE => decide (low ≤ p.1)
    | _ => false) E

/-- The internal-node descent loop of startScan (btree.cpp 840-870): take
the first child whose separator key is > lowVal, else the last child;
stop below a node with level == 1.  Each visited page is read and
immediately unpinned; currentPageNum / currentPageData track the visited
internal node.  Fuel bounds the walk; none models non-termination or a
malformed page. -/
def descendLoop (lowVal : Int) : Nat → BTreeState → Int → Option (BTreeState × Int)
  | 0, _, _ => none
  | fuel + 1, st, curPageNum =>
      let st1 := readPage st curPageNum
      let st2 := { st1 with currentPageNum := curPageNum,
                            currentPageData := lookupNode st1 curPageNum }
      match lookupNode st2 curPageNum with
      | .internal level K P =>
          let st3 := bufUnpin st2 curPageNum
          let next :=
            match findFirstIdx (fun x => decide (lowVal < x)) K with
            | some i => P.getD i INVALID_PAGE
            | none => P.getD K.length INVALID_PAGE
          if level = 1 then some (st3, next)
          else descendLoop lowVal fuel st3 next
      | .leaf _ _ => none

/-- The sibling-chasing loop of startScan (btree.cpp 879-914).  The
source's local curLeafNode pointer is set before the loop and never
reassigned inside it, while curPage is reassigned by readPage on a hop,
so the loop keeps scanning the page curLeafNode was bound to: the model
carries both the stale curLeafNode and the latest-read page value
(which the found branch stores into currentPageData).  The Bool result
distinguishes the found break (true) from the early return on reaching
INVALID_PAGE (false), which skips the final unpin of startScan. -/
def leafSearchLoop (lowOpP : Operator) (lowVal : Int) :
    Nat → BTreeState → NodeInt → NodeInt → Option (Bool × BTreeState)
  | 0, _, _, _ => none
  | fuel + 1, st, curLeafNode, curPageVal =>
      match curLeafNode with
      | .leaf E sib =>
          match scanLowIdx lowOpP lowVal E with
          | some i =>
              some (true, { st with nextEntry := (i : Int),
                                    currentPageData := curPageVal })
          | none =>
              if sib = INVALID_PAGE then
                some (false, { st with nextEntry := INVALID_KEY_INDEX })
              else
                let st1 := { st with nextEntry := 0 }
                let st2 := readPage st1 sib
                let newVal := lookupNode st2 sib
                let st3 := bufUnpin
                  { st2 with currentPageData := newVal, currentPageNum := sib } sib
                leafSearchLoop lowOpP lowVal fuel st3 curLeafNode newVal
      | .internal _ _ _ => none

/-- The search phase of startScan, entered after the operator and range
validation (btree.cpp 809-915 plus the closing try-unpin at 1150-1154);
st2 already has the scan members recorded and currentPageNum set to the
root. -/
def startScanSearch (fuel : Nat) (st2 : BTreeState) (lowVal : Int)
    (lowOpParm : Operator) : ScanOutcome × BTreeState :=
  let rootPageId := st2.rootPageNum
  if st2.isRootLeaf then
    let st3 := readPage st2 rootPageId
    match lookupNode st3 rootPageId with
    | .leaf E sib =>
        let st4 := { st3 with currentPageData := .leaf E sib }
        let st5 :=
          match scanLowIdx lowOpParm lowVal E with
          | some i => { st4 with nextEntry := (i : Int) }
          | none => st4
        if st5.nextEntry = INVALID_KEY_INDEX then
          (.err .NoSuchKeyFound, bufUnpin st5 rootPageId)
        else
          let st6 := bufUnpin st5 rootPageId
          (.ok, bufUnpin st6 st6.currentPageNum)
    | .internal _ _ _ => (.stuck, st3)
  else
    match descendLoop lowVal fuel st2 rootPageId with
    | none => (.stuck, st2)
    | some (st3, leafId) =>
        let st4 := readPage st3 leafId
        let node := lookupNode st4 leafId
        let st5 := bufUnpin { st4 with currentPageData := node } leafId
        match node with
        | .leaf _ _ =>
            match leafSearchLoop lowOpParm lowVal fuel st5 node node with
            | none => (.stuck, st5)
            | some (found, st6) =>
                if found then (.ok, bufUnpin st6 st6.currentPageNum)
                else (.ok, st6)
        | .internal _ _ _ => (.stuck, st5)

/-- btree.cpp startScan, INTEGER branch.  stuck models running out of
fuel in one of the source's unbounded loops (which can genuinely diverge:
the sibling loop rescans the stale curLeafNode) or a page of the wrong
kind. -/
def startScan (fuel : Nat) (st : BTreeState) (lowVal : Int)
    (lowOpParm : Operator) (highVal : Int) (highOpParm : Operator) :
    ScanOutcome × BTreeState :=
  let st0 := if st.scanExecuting then (endScan st).1 else st
  if lowOpParm = .LT ∨ lowOpParm = .LTE then (.err .BadOpcodes, st0)
  else if highOpParm = .GT ∨ highOpParm = .GTE then (.err .BadOpcodes, st0)
  else
    let st1 := { st0 with scanExecuting := true, lowOp := lowOpParm,
                          highOp := highOpParm, lowValInt := lowVal,
                          highValInt := highVal }
    if lowVal > highVal then (.err .BadScanrange, st1)
    else
      let st2 := { st1 with currentPageNum := st1.rootPageNum }
      startScanSearch fuel st2 lowVal lowOpParm

/-- The sibling-hop tail of scanNext (btree.cpp 1230-1259): unpin the
current page (swallowed), move currentPageNum to the sibling, read it,
check its first entry against the high predicate, unpin it. -/
def scanNextSib (stA : BTreeState) (sib : Int) (outRid : RecordId) :
    (Except NextErr RecordId) × BTreeState :=
  let st1 := bufUnpin stA stA.currentPageNum
  let st2 := readPage { st1 with currentPageNum := sib } sib
  let node := lookupNode st2 sib
  let st3 := { st2 with currentPageData := node }
  match node with
  | .leaf E2 _ =>
      let key0 := (E2.getD 0 dfltPair).1
      let st4 :=
        if st3.highOp = .LT then
          if st3.highValInt ≤ key0 then
            { st3 with nextEntry := INVALID_KEY_INDEX }
          else { st3 with nextEntry := 0 }
        else if st3.highOp = .LTE then
          if st3.highValInt < key0 then
            { st3 with nextEntry := INVALID_KEY_INDEX }
          else { st3 with nextEntry := 0 }
        else st3
      (.ok outRid, bufUnpin st4 sib)
  | .internal _ _ _ => (.error .Stuck, st3)

/-- The advance part of scanNext after the current entry has been
yielded (btree.cpp 1204-1260): stA already has nextEntry incremented. -/
def scanNextAdvance (stA : BTreeState) (E : List (Int × RecordId))
    (sib : Int) (outRid : RecordId) :
    (Except NextErr RecordId) × BTreeState :=
  if stA.nextEntry < (E.length : Int) then
    let nextKey := (E.getD stA.nextEntry.toNat dfltPair).1
    let st1 :=
      if stA.highOp = .LT then
        if stA.highValInt ≤ nextKey then
          { stA with nextEntry := INVALID_KEY_INDEX }
        else stA
      else if stA.highOp = .LTE then
        if stA.highValInt < nextKey then
          { stA with nextEntry := INVALID_KEY_INDEX }
        else stA
      else stA
    (.ok outRid, st1)
  else
    if sib = INVALID_PAGE then
      (.ok outRid,
        bufUnpin { stA with nextEntry := INVALID_KEY_INDEX }
          stA.currentPageNum)
    else scanNextSib stA sib outRid

/-- btree.cpp scanNext, INTEGER branch.  The source reads the leaf
through the cached currentPageData pointer (currentPageNum may still name
the parent internal page after startScan); on a sibling hop it unpins the
old current page, reads and later unpins the sibling. -/
def scanNext (st : BTreeState) : (Except NextErr RecordId) × BTreeState :=
  if st.scanExecuting = false then
    (.error .ScanNotInit, bufUnpin st st.currentPageNum)
  else if st.nextEntry = INVALID_KEY_INDEX then
    (.error .IndexScanCompleted, bufUnpin st st.currentPageNum)
  else
    match st.currentPageData with
    | .leaf E sib =>
        let i := st.nextEntry.toNat
        let curKey := (E.getD i dfltPair).1
        if st.highOp = .LT ∧ st.highValInt ≤ curKey then
          (.error .IndexScanCompleted, bufUnpin st st.currentPageNum)
        else if st.highOp = .LTE ∧ st.highValInt < curKey then
          (.error .IndexScanCompleted, bufUnpin st st.currentPageNum)
        else
          let outRid := (E.getD i dfltPair).2
          scanNextAdvance { st with nextEntry := st.nextEntry + 1 } E sib
            outRid
    | .internal _ _ _ => (.error .Stuck, st)

/-- Repeated scanNext collecting the yielded rids until an exception. -/
def scanAll : Nat → BTreeState → List RecordId
  | 0, _ => []
  | fuel + 1, st =>
      match scanNext st with
      | (.ok rid, st1) => rid :: scanAll fuel st1
      | (.error _, _) => []

/-! ### Constructor meta-page check -/

inductive Datatype
  | INTEGER
  | DOUBLE
  | STRING
deriving DecidableEq, Repr

/-- The meta page contents.  btree.cpp reads and writes an isRootLeaf
member through the IndexMetaInfo pointer (the struct declaration in the
checked-in btree.h lags behind and lacks the field, but the .cpp is
unambiguous about the layout it uses), so the model includes it. -/
structure IndexMetaInfo where
  relationName : String
  attrByteOffset : Int
  attrType : Datatype
  rootPageNo : Int
  isRootLeaf : Bool
deriving DecidableEq, Repr

structure OpenResult where
  badIndexInfo : Bool
  rootPageNum : Int
  isRootLeaf : Bool
deriving DecidableEq, Repr

/-- btree.cpp constructor, open-existing path (lines 86-115): read
rootPageNo and isRootLeaf from the meta page, then compare relationName
(strlen plus strcmp, i.e. string equality), attrByteOffset and attrType
against the caller parameters; BadIndexInfoException iff any of those
three differ.  rootPageNo is not compared (the constructor has no caller
root-page parameter). -/
def openExistingIndexCheck (meta : IndexMetaInfo) (relationName : String)
    (attrByteOffset : Int) (attrType : Datatype) : OpenResult :=
  let isRootLeaf := meta.isRootLeaf
  let rootPageNum := meta.rootPageNo
  let relationNameMatch := meta.relationName = relationName
  let attributeByteOffsetMatch := meta.attrByteOffset = attrByteOffset
  let attrTypeMatch := meta.attrType = attrType
  if ¬(relationNameMatch ∧ attributeByteOffsetMatch ∧ attrTypeMatch) then
    { badIndexInfo := true, rootPageNum := rootPageNum, isRootLeaf := isRootLeaf }
  else
    { badIndexInfo := false, rootPageNum := rootPageNum, isRootLeaf := isRootLeaf }

/-- Modelled from the spec: the claimed four-field consistency check,
which also compares the meta page's root page number against a caller
expectation (the code's constructor has no such parameter; callerRootPageNo
stands for the claimed fourth comparison). -/
def openExistingIndexCheckSpec (meta : IndexMetaInfo) (relationName : String)
    (attrByteOffset : Int) (attrType : Datatype) (callerRootPageNo : Int) :
    OpenResult :=
  if ¬(meta.relationName = relationName ∧ meta.attrByteOffset = attrByteOffset ∧
       meta.attrType = attrType ∧ meta.rootPageNo = callerRootPageNo) then
    { badIndexInfo := true, rootPageNum := meta.rootPageNo,
      isRootLeaf := meta.isRootLeaf }
  else
    { badIndexInfo := false, rootPageNum := meta.rootPageNo,
      isRootLeaf := meta.isRootLeaf }

/-- The state of a freshly created INTEGER index holding entries E in its
single root leaf (the constructor's create path allocates the meta page 1
and the root page 2, so the next free page is 3; scan members start out
cleared as in the constructor). -/
def rootLeafState (cap : Int) (E : List (Int × RecordId)) : BTreeState where
  pages := [(2, .leaf E INVALID_PAGE)]
  nextFreePage := 3
  rootPageNum := 2
  isRootLeaf := true
  scanExecuting := false
  nextEntry := INVALID_KEY_INDEX
  currentPageNum := 0
  currentPageData := .leaf [] INVALID_PAGE
  lowOp := .GT
  highOp := .LT
  lowValInt := 0
  highValInt := 0
  leafOccupancy := cap
  nodeOccupancy := cap
  pins := []

/-- Initial state of a freshly created, empty INTEGER index. -/
def initState (cap : Int) : BTreeState := rootLeafState cap []

/-- A fixed garbage valuation, used to instantiate the indeterminate-stack
parameters at concrete inputs. -/
def g0 : Nat → Int := fun _ => 0

/-! ### Helper lemmas about the state operations -/

theorem lookup_assocSet_self (l : List (Int × NodeInt)) (p : Int) (n : NodeInt) :
    (assocSet l p n).lookup p = some n := by
  induction l with
  | nil => simp [assocSet, List.lookup]
  | cons a t ih =>
      by_cases h : a.1 = p
      · simp [assocSet, h, List.lookup]
      · have h1 : assocSet (a :: t) p n = a :: assocSet t p n := by
          cases a with
          | mk q m => simp [assocSet, h]
        rw [h1]
        have h2 : (p == a.1) = false := by
          simp [beq_iff_eq]
          exact fun hc => h hc.symm
        cases a with
        | mk q m =>
            simp only [List.lookup]
            simp only [show (p == q) = false from h2]
            exact ih

theorem lookup_assocSet_ne (l : List (Int × NodeInt)) (p q : Int) (n : NodeInt)
    (h : q ≠ p) : (assocSet l p n).lookup q = l.lookup q := by
  have hqp : (q == p) = false := beq_eq_false_iff_ne.mpr h
  induction l with
  | nil => simp [assocSet, List.lookup, hqp]
  | cons a t ih =>
      cases a with
      | mk a1 m =>
          by_cases h1 : a1 = p
          · subst h1
            simp [assocSet, List.lookup, hqp]
          · simp only [assocSet, if_neg h1]
            cases hqa : (q == a1) with
            | true => simp [List.lookup, hqa]
            | false => simpa [List.lookup, hqa] using ih

theorem lookupNode_setPage_self (st : BTreeState) (p : Int) (n : NodeInt) :
    lookupNode (setPage st p n) p = n := by
  simp [lookupNode, setPage, lookup_assocSet_self]

theorem lookupNode_setPage_ne (st : BTreeState) (p q : Int) (n : NodeInt)
    (h : q ≠ p) : lookupNode (setPage st p n) q = lookupNode st q := by
  simp [lookupNode, setPage, lookup_assocSet_ne _ _ _ _ h]

theorem lookupNode_readPage (st : BTreeState) (p q : Int) :
    lookupNode (readPage st p) q = lookupNode st q := rfl

theorem bufUnpin_readPage (st : BTreeState) (p : Int) :
    bufUnpin (readPage st p) p = st := by
  cases st
  simp [bufUnpin, readPage]

/-! ### C10: insertEntry with INT_MAX on an internal root is a no-op -/

theorem findRouteAux_intmax (K : List Int) :
    (∀ x ∈ K, x ≤ INT_MAX) → ∀ i, findRouteAux INT_MAX K i = none := by
  induction K with
  | nil => intro _ i; rfl
  | cons a t ih =>
      intro hk i
      have ha : a ≤ INT_MAX := hk a (List.mem_cons_self a t)
      have hnlt : ¬ INT_MAX < a := not_lt_of_le ha
      cases t with
      | nil =>
          simp only [findRouteAux]
          rw [if_neg (by exact fun hc => hnlt hc.2)]
          rw [if_neg (by exact fun hc => lt_irrefl INT_MAX hc.2)]
      | cons b t' =>
          have hb : b ≤ INT_MAX := hk b (List.mem_cons_of_mem a (List.mem_cons_self b t'))
          simp only [findRouteAux]
          rw [if_neg (by exact fun hc => hnlt hc.2)]
          rw [if_neg (by exact fun hc => not_lt_of_le hb hc.2)]
          exact ih (fun x hx => hk x (List.mem_cons_of_mem a hx)) (i + 1)

theorem findRoute_intmax (K : List Int) (hk : ∀ x ∈ K, x ≤ INT_MAX) :
    findRoute K INT_MAX = none :=
  findRouteAux_intmax K hk 0

theorem insertRecursive_route_none (gK gP : Nat → Int) (fuel : Nat)
    (st : BTreeState) (node : Int) (key : Int) (rid : RecordId)
    (lvl : Int) (K P : List Int)
    (hlook : lookupNode st node = .internal lvl K P)
    (hroute : findRoute K key = none) :
    insertRecursive gK gP fuel st node key rid = (st, false, 0, 0) := by
  cases fuel with
  | zero => rfl
  | succ n =>
      have h1 : lookupNode (readPage st node) node = .internal lvl K P := hlook
      simp only [insertRecursive, h1, hroute]
      rw [bufUnpin_readPage]

/-- C10: for an INTEGER index whose root is an internal node (with keys in
the valid int range), insertEntry with key INT_MAX returns without error
and without modifying anything: the routing loop of insertRecursive finds
no child for INT_MAX, so the entry is silently dropped and the state --
pages, root, pins, everything -- is exactly what it was. -/
theorem insertEntry_intmax_noop (gK gP : Nat → Int) (fuel : Nat)
    (st : BTreeState) (rid : RecordId) (lvl : Int) (K P : List Int)
    (hroot : st.isRootLeaf = false)
    (hlook : lookupNode st st.rootPageNum = .internal lvl K P)
    (hkeys : ∀ x ∈ K, x ≤ INT_MAX) :
    insertEntry gK gP fuel st INT_MAX rid = st := by
  have hroute : findRoute K INT_MAX = none := findRoute_intmax K hkeys
  have h1 : lookupNode (readPage st st.rootPageNum) st.rootPageNum =
      .internal lvl K P := hlook
  have h2 : (readPage st st.rootPageNum).isRootLeaf = false := hroot
  simp only [insertEntry, h2, if_neg (Bool.false_ne_true)]
  rw [insertRecursive_route_none gK gP fuel _ _ _ _ lvl K P h1 hroute]
  exact bufUnpin_readPage st st.rootPageNum

/-- Witness for the C10 theorem at a concrete two-level tree. -/
theorem insertEntry_intmax_noop_witness :
    (let st : BTreeState :=
      { pages := [(2, .internal 1 [10] [3, 4]),
                  (3, .leaf [(5, ⟨1, 1⟩)] 4),
                  (4, .leaf [(10, ⟨2, 2⟩)] INVALID_PAGE)]
        nextFreePage := 5, rootPageNum := 2, isRootLeaf := false
        scanExecuting := false, nextEntry := INVALID_KEY_INDEX
        currentPageNum := 0, currentPageData := .leaf [] INVALID_PAGE
        lowOp := .GT, highOp := .LT, lowValInt := 0, highValInt := 0
        leafOccupancy := 1, nodeOccupancy := 1, pins := [] }
     insertEntry g0 g0 3 st INT_MAX ⟨9, 9⟩ = st) := by
  exact insertEntry_intmax_noop g0 g0 3 _ ⟨9, 9⟩ 1 [10] [3, 4] rfl rfl
    (by intro x hx; simp at hx; subst hx; decide)

/-! ### C3: the internal-node split leaves the new right sibling empty -/

/-- C3: evaluating insertNonLeaf at a full internal node (keys [10, 20],
children [3, 4, 5], occupancy 2) receiving promoted key 5 with new child
page 6 routed at child index 0, for every garbage valuation of the
uninitialised temp-array slots: the claim says the newly allocated right
sibling should receive the keys above the middle ([20]) together with
their children ([4, 5]); instead the source sets the left node's len to
splitKeyIndex before the move loop reads it, so the right sibling comes
out with zero keys and a single child [4], and child page 5 is dropped
from the tree.  The promoted key (10) and the left half agree with the
claim here. -/
theorem insertNonLeaf_right_sibling_empty :
    ∀ gK gP : Nat → Int,
      (let st : BTreeState :=
        { pages := [(9, .internal 1 [10, 20] [3, 4, 5])]
          nextFreePage := 7, rootPageNum := 9, isRootLeaf := false
          scanExecuting := false, nextEntry := INVALID_KEY_INDEX
          currentPageNum := 0, currentPageData := .leaf [] INVALID_PAGE
          lowOp := .GT, highOp := .LT, lowValInt := 0, highValInt := 0
          leafOccupancy := 2, nodeOccupancy := 2, pins := [] }
       let res := insertNonLeaf gK gP st 9 0 5 6
       res.2.1 = true ∧ res.2.2.1 = 10 ∧ res.2.2.2 = 7 ∧
       lookupNode res.1 7 = .internal 1 [] [4] ∧
       lookupNode res.1 9 = .internal 1 [5] [3, 6] ∧
       lookupNode res.1 7 ≠ .internal 1 [20] [4, 5]) := by
  intro gK gP
  refine ⟨rfl, rfl, rfl, rfl, rfl, ?_⟩
  intro hc
  exact absurd
    (show NodeInt.internal 1 [] [4] = NodeInt.internal 1 [20] [4, 5] from hc)
    (by decide)

/-! ### C9: the constructor's meta-page consistency check -/

/-- C9 counterexample: an existing meta page whose root page number (999)
differs from any caller expectation (e.g. the initial root page 2) is
accepted by the code's check as long as relation name, attribute offset
and attribute type match -- the claimed four-field comparison
(openExistingIndexCheckSpec) would reject it. -/
theorem openExistingIndexCheck_root_not_compared :
    (openExistingIndexCheck ⟨"rel", 4, .INTEGER, 999, false⟩ "rel" 4
        .INTEGER).badIndexInfo = false ∧
    (openExistingIndexCheckSpec ⟨"rel", 4, .INTEGER, 999, false⟩ "rel" 4
        .INTEGER 2).badIndexInfo = true ∧
    (openExistingIndexCheck ⟨"rel", 4, .INTEGER, 999, false⟩ "rel" 4
        .INTEGER).rootPageNum = 999 := by
  decide

/-- C9 amended: the constructor's re-open check compares exactly three
fields -- relation name, attribute byte offset, attribute type -- and
reports BadIndexInfo iff one of them mismatches; the root page number is
not compared (there is no caller parameter for it), and the in-memory
root page number and is-root-leaf flag are taken from the meta page. -/
theorem openExistingIndexCheck_three_fields (meta : IndexMetaInfo)
    (relationName : String) (attrByteOffset : Int) (attrType : Datatype) :
    ((openExistingIndexCheck meta relationName attrByteOffset
        attrType).badIndexInfo = true ↔
      ¬(meta.relationName = relationName ∧ meta.attrByteOffset = attrByteOffset ∧
        meta.attrType = attrType))
    ∧ (openExistingIndexCheck meta relationName attrByteOffset
        attrType).rootPageNum = meta.rootPageNo
    ∧ (openExistingIndexCheck meta relationName attrByteOffset
        attrType).isRootLeaf = meta.isRootLeaf := by
  unfold openExistingIndexCheck
  by_cases h : meta.relationName = relationName ∧
      meta.attrByteOffset = attrByteOffset ∧ meta.attrType = attrType
  · simp [h]
  · simp [h]

/-! ### C4: scan order of duplicate keys -/

/-- The index state after inserting (10, r1), (10, r2), (10, r3) with
r1.page = 1 < r2.page = 2 < r3.page = 3 into an empty INTEGER index. -/
def c4State : BTreeState :=
  insertEntry g0 g0 0
    (insertEntry g0 g0 0
      (insertEntry g0 g0 0 (initState 10) 10 ⟨1, 1⟩) 10 ⟨2, 2⟩) 10 ⟨3, 3⟩

/-- C4 counterexample: after inserting (10, r1), (10, r2), (10, r3) with
increasing rid page numbers, the scan over [10, GTE, 10, LTE] succeeds
but does NOT yield r1, r2, r3 in that order. -/
theorem c4_duplicates_not_in_rid_order :
    (startScan 1 c4State 10 .GTE 10 .LTE).1 = .ok ∧
    scanAll 5 (startScan 1 c4State 10 .GTE 10 .LTE).2 ≠
      [⟨1, 1⟩, ⟨2, 2⟩, ⟨3, 3⟩] := by
  decide

/-- C4 amended: the scan yields r3, r2, r1 -- the reverse of insertion
order -- because insertKeyRidToKeyRidArray places a new duplicate before
the existing equal keys (the >= lower-bound placement). -/
theorem c4_duplicates_reverse_order :
    (startScan 1 c4State 10 .GTE 10 .LTE).1 = .ok ∧
    scanAll 5 (startScan 1 c4State 10 .GTE 10 .LTE).2 =
      [⟨3, 3⟩, ⟨2, 2⟩, ⟨1, 1⟩] := by
  decide

/-! ### C7: what failing startScan calls leave behind -/

/-- C7 counterexample: on a fresh index (no scan in progress),
startScan(10, GTE, 5, LTE) throws BadScanRange but leaves scan_executing
set to true -- the observable state after the call differs from the state
before it, which an immediately following scanNext can observe (it now
raises IndexScanCompleted instead of ScanNotInitialized). -/
theorem startScan_badScanrange_mutates :
    (startScan 1 (initState 10) 10 .GTE 5 .LTE).1 = .err .BadScanrange ∧
    (startScan 1 (initState 10) 10 .GTE 5 .LTE).2 ≠ initState 10 ∧
    (startScan 1 (initState 10) 10 .GTE 5 .LTE).2.scanExecuting = true ∧
    (initState 10).scanExecuting = false ∧
    (scanNext (startScan 1 (initState 10) 10 .GTE 5 .LTE).2).1 =
      .error .IndexScanCompleted := by
  decide

/-- C7 amended: with no scan in progress, a BadOpcodes failure leaves the
state exactly unchanged, but a BadScanRange failure (valid opcodes, low >
high) returns with scan_executing set to true and the scan bounds and
operators recorded; the tree contents (pages) are unchanged in both
cases. -/
theorem startScan_error_state (fuel : Nat) (st : BTreeState)
    (lowVal highVal : Int) (lowOpParm highOpParm : Operator)
    (hexec : st.scanExecuting = false) :
    ((lowOpParm = .LT ∨ lowOpParm = .LTE ∨ highOpParm = .GT ∨ highOpParm = .GTE) →
      (startScan fuel st lowVal lowOpParm highVal highOpParm).2 = st)
    ∧ ((lowOpParm = .GT ∨ lowOpParm = .GTE) →
        (highOpParm = .LT ∨ highOpParm = .LTE) → lowVal > highVal →
        (startScan fuel st lowVal lowOpParm highVal highOpParm).1 =
          .err .BadScanrange ∧
        (startScan fuel st lowVal lowOpParm highVal highOpParm).2 =
          { st with scanExecuting := true, lowOp := lowOpParm,
                    highOp := highOpParm, lowValInt := lowVal,
                    highValInt := highVal }) := by
  constructor
  · intro hbad
    cases lowOpParm <;> cases highOpParm <;>
      simp_all [startScan, hexec]
  · intro hl hh hrange
    rcases hl with hl | hl <;> rcases hh with hh | hh <;> subst hl <;> subst hh <;>
      (constructor <;> simp [startScan, hexec, hrange])

/-- Witness for the C7 amended theorem at concrete inputs. -/
theorem startScan_error_state_witness :
    ((Operator.LT = .LT ∨ Operator.LT = .LTE ∨ Operator.LT = .GT ∨
        Operator.LT = .GTE) →
      (startScan 1 (initState 10) 5 .LT 10 .LT).2 = initState 10)
    ∧ ((Operator.LT = .GT ∨ Operator.LT = .GTE) →
        (Operator.LT = .LT ∨ Operator.LT = .LTE) → (5 : Int) > 10 →
        (startScan 1 (initState 10) 5 .LT 10 .LT).1 = .err .BadScanrange ∧
        (startScan 1 (initState 10) 5 .LT 10 .LT).2 =
          { (initState 10) with scanExecuting := true, lowOp := .LT,
                                highOp := .LT, lowValInt := 5,
                                highValInt := 10 }) :=
  startScan_error_state 1 (initState 10) 5 10 .LT .LT rfl

/-! ### C6: startScan validation -/

theorem startScanSearch_no_validation_err (fuel : Nat) (st2 : BTreeState)
    (lowVal : Int) (lowOpParm : Operator) :
    (startScanSearch fuel st2 lowVal lowOpParm).1 ≠ .err .BadOpcodes ∧
    (startScanSearch fuel st2 lowVal lowOpParm).1 ≠ .err .BadScanrange := by
  unfold startScanSearch
  refine ⟨?_, ?_⟩ <;>
  · dsimp only
    by_cases hrl : st2.isRootLeaf = true
    · rw [if_pos hrl]
      rcases hlk : lookupNode (readPage st2 st2.rootPageNum) st2.rootPageNum with
        ⟨E, sib⟩ | ⟨lvl, K, P⟩
      · dsimp only
        split
        · simp
        · simp
      · simp
    · rw [if_neg hrl]
      rcases hd : descendLoop lowVal fuel st2 st2.rootPageNum with _ | ⟨st3, leafId⟩
      · simp
      · dsimp only
        rcases hn : lookupNode (readPage st3 leafId) leafId with ⟨E, sib⟩ | ⟨lvl, K, P⟩
        · simp only [hn]
          split
          · simp
          · split <;> simp
        · simp [hn]

theorem op_low_good (lop : Operator) (h : ¬(lop = .LT ∨ lop = .LTE)) :
    lop = .GT ∨ lop = .GTE := by
  cases lop <;> simp_all

theorem op_high_good (hop : Operator) (h : ¬(hop = .GT ∨ hop = .GTE)) :
    hop = .LT ∨ hop = .LTE := by
  cases hop <;> simp_all

/-- C6: startScan fails with BadOpcodes exactly when the low operator is
not GT/GTE or the high operator is not LT/LTE, and fails with
BadScanRange exactly when the operators are acceptable and low_val >
high_val -- so the opcode check takes precedence over the range check. -/
theorem startScan_validation (fuel : Nat) (st : BTreeState)
    (lowVal highVal : Int) (lowOpParm highOpParm : Operator) :
    ((startScan fuel st lowVal lowOpParm highVal highOpParm).1 =
        .err .BadOpcodes ↔
      (lowOpParm = .LT ∨ lowOpParm = .LTE ∨ highOpParm = .GT ∨
        highOpParm = .GTE))
    ∧ ((startScan fuel st lowVal lowOpParm highVal highOpParm).1 =
        .err .BadScanrange ↔
      ((lowOpParm = .GT ∨ lowOpParm = .GTE) ∧
        (highOpParm = .LT ∨ highOpParm = .LTE) ∧ lowVal > highVal)) := by
  by_cases h1 : lowOpParm = .LT ∨ lowOpParm = .LTE
  · constructor
    · simp only [startScan, if_pos h1]
      constructor
      · intro _
        rcases h1 with h | h
        · exact Or.inl h
        · exact Or.inr (Or.inl h)
      · intro _; trivial
    · simp only [startScan, if_pos h1]
      constructor
      · intro hc
        exact absurd hc (by simp)
      · rintro ⟨hg, -, -⟩
        rcases hg with hg | hg <;> rcases h1 with h1 | h1 <;> subst hg <;>
          simp_all
  · by_cases h2 : highOpParm = .GT ∨ highOpParm = .GTE
    · constructor
      · simp only [startScan, if_neg h1, if_pos h2]
        constructor
        · intro _
          rcases h2 with h | h
          · exact Or.inr (Or.inr (Or.inl h))
          · exact Or.inr (Or.inr (Or.inr h))
        · intro _; trivial
      · simp only [startScan, if_neg h1, if_pos h2]
        constructor
        · intro hc
          exact absurd hc (by simp)
        · rintro ⟨-, hh, -⟩
          rcases hh with hh | hh <;> rcases h2 with h2 | h2 <;> subst hh <;>
            simp_all
    · by_cases h3 : lowVal > highVal
      · constructor
        · simp only [startScan, if_neg h1, if_neg h2, if_pos h3]
          constructor
          · intro hc
            exact absurd hc (by simp)
          · intro hc
            rcases hc with hc | hc | hc | hc
            · exact absurd (Or.inl hc) h1
            · exact absurd (Or.inr hc) h1
            · exact absurd (Or.inl hc) h2
            · exact absurd (Or.inr hc) h2
        · simp only [startScan, if_neg h1, if_neg h2, if_pos h3]
          constructor
          · intro _
            exact ⟨op_low_good _ h1, op_high_good _ h2, h3⟩
          · intro _; trivial
      · have hne := startScanSearch_no_validation_err fuel
          { (if st.scanExecuting then (endScan st).1 else st) with
            scanExecuting := true, lowOp := lowOpParm, highOp := highOpParm,
            lowValInt := lowVal, highValInt := highVal,
            currentPageNum :=
              (if st.scanExecuting then (endScan st).1 else st).rootPageNum }
          lowVal lowOpParm
        constructor
        · simp only [startScan, if_neg h1, if_neg h2, if_neg h3]
          constructor
          · intro hc; exact absurd hc hne.1
          · intro hc
            rcases hc with hc | hc | hc | hc
            · exact absurd (Or.inl hc) h1
            · exact absurd (Or.inr hc) h1
            · exact absurd (Or.inl hc) h2
            · exact absurd (Or.inr hc) h2
        · simp only [startScan, if_neg h1, if_neg h2, if_neg h3]
          constructor
          · intro hc; exact absurd hc hne.2
          · rintro ⟨-, -, hc⟩; exact absurd hc h3

/-! ### C8: pin balance of the scan operations -/

theorem endScan_pins (st : BTreeState) (h : st.pins = []) :
    (endScan st).1.pins = [] := by
  unfold endScan
  by_cases hx : st.scanExecuting = true
  · simp [hx, bufUnpin, h]
  · simp [hx, h]

theorem descendLoop_pins (lowVal : Int) :
    ∀ (fuel : Nat) (st : BTreeState) (cur : Int) (stOut : BTreeState)
      (leafId : Int), st.pins = [] →
      descendLoop lowVal fuel st cur = some (stOut, leafId) →
      stOut.pins = [] := by
  intro fuel
  induction fuel with
  | zero => intro st cur so li h hd; simp [descendLoop] at hd
  | succ n ih =>
      intro st cur so li h hd
      simp only [descendLoop] at hd
      split at hd
      · split at hd
        · simp only [Option.some.injEq, Prod.mk.injEq] at hd
          obtain ⟨h2, -⟩ := hd
          rw [← h2]
          simp [bufUnpin, readPage, h]
        · exact ih _ _ so li (by simp [bufUnpin, readPage, h]) hd
      · simp at hd

theorem leafSearchLoop_pins (lowOpP : Operator) (lowVal : Int) :
    ∀ (fuel : Nat) (st : BTreeState) (curLeaf curVal : NodeInt)
      (found : Bool) (stOut : BTreeState), st.pins = [] →
      leafSearchLoop lowOpP lowVal fuel st curLeaf curVal =
        some (found, stOut) →
      stOut.pins = [] := by
  intro fuel
  induction fuel with
  | zero => intro st cl cv f so h hd; simp [leafSearchLoop] at hd
  | succ n ih =>
      intro st cl cv f so h hd
      simp only [leafSearchLoop] at hd
      split at hd
      · split at hd
        · simp only [Option.some.injEq, Prod.mk.injEq] at hd
          obtain ⟨-, h2⟩ := hd
          rw [← h2]
          simpa using h
        · split at hd
          · simp only [Option.some.injEq, Prod.mk.injEq] at hd
            obtain ⟨-, h2⟩ := hd
            rw [← h2]
            simpa using h
          · exact ih _ _ _ f so (by simp [bufUnpin, readPage, h]) hd
      · simp at hd

theorem startScanSearch_pins (fuel : Nat) (st2 : BTreeState) (lowVal : Int)
    (lop : Operator) (h : st2.pins = []) :
    (startScanSearch fuel st2 lowVal lop).1 = .stuck ∨
    (startScanSearch fuel st2 lowVal lop).2.pins = [] := by
  unfold startScanSearch
  dsimp only
  split
  · split
    · right
      split
      · split <;> simp [bufUnpin, readPage, h]
      · split <;> simp [bufUnpin, readPage, h]
    · left; rfl
  · split
    · left; rfl
    · rename_i st3 leafId hd
      have h3 : st3.pins = [] :=
        descendLoop_pins lowVal fuel st2 _ st3 leafId h hd
      split
      · split
        · left; rfl
        · rename_i found st6 hls
          right
          have h6 := leafSearchLoop_pins lop lowVal fuel _ _ _ found st6
            (by simp [bufUnpin, readPage, h3]) hls
          split <;> simp [bufUnpin, h6]
      · right
        simp [bufUnpin, readPage, h3]

theorem startScan_pins (fuel : Nat) (st : BTreeState) (lowVal highVal : Int)
    (lop hop : Operator) (h : st.pins = []) :
    (startScan fuel st lowVal lop highVal hop).1 = .stuck ∨
    (startScan fuel st lowVal lop highVal hop).2.pins = [] := by
  have h0 : (if st.scanExecuting then (endScan st).1 else st).pins = [] := by
    by_cases hx : st.scanExecuting = true
    · simpa [hx] using endScan_pins st h
    · simp [hx, h]
  unfold startScan
  dsimp only
  split
  · right; exact h0
  · split
    · right; exact h0
    · split
      · right; exact h0
      · exact startScanSearch_pins fuel _ lowVal lop h0

theorem scanNextSib_pins (stA : BTreeState) (sib : Int) (outRid : RecordId)
    (h : stA.pins = []) :
    (scanNextSib stA sib outRid).1 = .error .Stuck ∨
    (scanNextSib stA sib outRid).2.pins = [] := by
  unfold scanNextSib
  dsimp only
  split
  · right
    split
    · split <;>
        simp [bufUnpin, readPage, h, List.erase_nil, List.erase_cons_head]
    · split
      · split <;>
          simp [bufUnpin, readPage, h, List.erase_nil, List.erase_cons_head]
      · simp [bufUnpin, readPage, h, List.erase_nil, List.erase_cons_head]
  · left; rfl

theorem scanNextAdvance_pins (stA : BTreeState) (E : List (Int × RecordId))
    (sib : Int) (outRid : RecordId) (h : stA.pins = []) :
    (scanNextAdvance stA E sib outRid).1 = .error .Stuck ∨
    (scanNextAdvance stA E sib outRid).2.pins = [] := by
  unfold scanNextAdvance
  dsimp only
  split
  · right
    split
    · split <;> simp [h]
    · split
      · split <;> simp [h]
      · simp [h]
  · split
    · right; simp [bufUnpin, h, List.erase_nil]
    · exact scanNextSib_pins stA sib outRid h

theorem scanNext_pins (st : BTreeState) (h : st.pins = []) :
    (scanNext st).1 = .error .Stuck ∨ (scanNext st).2.pins = [] := by
  unfold scanNext
  dsimp only
  split
  · right; simp [bufUnpin, h, List.erase_nil]
  · split
    · right; simp [bufUnpin, h, List.erase_nil]
    · split
      · split
        · right; simp [bufUnpin, h, List.erase_nil]
        · split
          · right; simp [bufUnpin, h, List.erase_nil]
          · exact scanNextAdvance_pins _ _ _ _ h
      · left; rfl

/-- C8 counterexample: a successful start_scan on an index holding
(42, (5, 3)) returns with the scan active but with every pin count zero:
the found leaf is NOT left pinned (the source unpins it at lines 831-835
and again, swallowed, at 1150-1154, keeping only the raw pointer). -/
theorem startScan_found_leaf_not_pinned :
    (startScan 1 (rootLeafState 10 [(42, ⟨5, 3⟩)]) 42 .GTE 42 .LTE).1 =
      .ok ∧
    (startScan 1 (rootLeafState 10 [(42, ⟨5, 3⟩)]) 42 .GTE 42
      .LTE).2.scanExecuting = true ∧
    (startScan 1 (rootLeafState 10 [(42, ⟨5, 3⟩)]) 42 .GTE 42
      .LTE).2.pins = [] ∧
    ((startScan 1 (rootLeafState 70 [(42, ⟨5, 3⟩)]) 42 .GTE 42
      .LTE).2.pins.count
        (startScan 1 (rootLeafState 70 [(42, ⟨5, 3⟩)]) 42 .GTE 42
          .LTE).2.currentPageNum ≠ 1) := by
  decide

/-- C8 amended: whenever startScan or scanNext return (stuck models the
source diverging or dereferencing a page of the wrong kind), the
buffer-manager pin count attributable to the index is zero for every
page, including while a scan is active: the scan's current leaf is not
kept pinned. -/
theorem scan_ops_pin_balance (fuel : Nat) (st st2 : BTreeState)
    (lowVal highVal : Int) (lop hop : Operator)
    (h1 : st.pins = []) (h2 : st2.pins = [])
    (hs1 : (startScan fuel st lowVal lop highVal hop).1 ≠ .stuck)
    (hs2 : (scanNext st2).1 ≠ .error .Stuck) :
    (startScan fuel st lowVal lop highVal hop).2.pins = [] ∧
    (scanNext st2).2.pins = [] := by
  constructor
  · rcases startScan_pins fuel st lowVal highVal lop hop h1 with hc | hc
    · exact absurd hc hs1
    · exact hc
  · rcases scanNext_pins st2 h2 with hc | hc
    · exact absurd hc hs2
    · exact hc

/-- A mid-scan state over the single-entry leaf, used as a witness
input. -/
def c8ScanState : BTreeState :=
  { rootLeafState 10 [(42, ⟨5, 3⟩)] with
      scanExecuting := true
      nextEntry := 0
      currentPageNum := 2
      currentPageData := .leaf [(42, ⟨5, 3⟩)] INVALID_PAGE
      highOp := .LTE
      highValInt := 42 }

/-- Witness for the C8 amended theorem at concrete states. -/
theorem scan_ops_pin_balance_witness :
    (startScan 1 (rootLeafState 10 [(42, ⟨5, 3⟩)]) 42 .GTE 42
      .LTE).2.pins = [] ∧
    (scanNext c8ScanState).2.pins = [] :=
  scan_ops_pin_balance 1 (rootLeafState 10 [(42, ⟨5, 3⟩)]) c8ScanState
    42 42 .GTE .LTE rfl rfl (by decide) (by decide)

/-! ### C5: the scanNext contract -/

/-- The high-predicate violation test scanNext applies to the entry at
nextEntry of the current leaf (keys >= highVal for LT, keys > highVal for
LTE). -/
def highViolated (st : BTreeState) (E : List (Int × RecordId)) : Prop :=
  (st.highOp = .LT ∧
    st.highValInt ≤ (E.getD st.nextEntry.toNat dfltPair).1) ∨
  (st.highOp = .LTE ∧
    st.highValInt < (E.getD st.nextEntry.toNat dfltPair).1)

theorem scanNextAdvance_ok_or_stuck (stA : BTreeState)
    (E : List (Int × RecordId)) (sib : Int) (outRid : RecordId) :
    (scanNextAdvance stA E sib outRid).1 = .ok outRid ∨
    (scanNextAdvance stA E sib outRid).1 = .error .Stuck := by
  unfold scanNextAdvance scanNextSib
  dsimp only
  split
  · left; rfl
  · split
    · left; rfl
    · split
      · left; rfl
      · right; rfl

theorem scanNextAdvance_ok (stA : BTreeState) (E : List (Int × RecordId))
    (sib : Int) (outRid : RecordId)
    (hsib : sib = INVALID_PAGE ∨ ∃ E2 s2, lookupNode stA sib = .leaf E2 s2) :
    (scanNextAdvance stA E sib outRid).1 = .ok outRid := by
  unfold scanNextAdvance scanNextSib
  dsimp only
  split
  · rfl
  · split
    · rfl
    · rename_i hnv
      rcases hsib with hs | ⟨E2, s2, hl⟩
      · exact absurd hs hnv
      · split
        · rfl
        · rename_i lvl K P hni
          exact absurd (hl.symm.trans hni) (by simp)

/-- C5 counterexample: an executing scan positioned at an entry that
violates the high predicate (key 10, highOp LT, highVal 10): scanNext
raises IndexScanCompleted but leaves next_entry at 0 instead of setting
it to the INVALID_ENTRY sentinel as the claim states. -/
def c5State : BTreeState :=
  { rootLeafState 10 [(10, ⟨2, 2⟩)] with
      scanExecuting := true
      nextEntry := 0
      currentPageNum := 2
      currentPageData := .leaf [(10, ⟨2, 2⟩)] INVALID_PAGE
      highOp := .LT
      highValInt := 10 }

theorem scanNext_violation_keeps_nextEntry :
    (scanNext c5State).1 = .error .IndexScanCompleted ∧
    (scanNext c5State).2.nextEntry = 0 ∧
    (0 : Int) ≠ INVALID_KEY_INDEX := by
  decide

/-- C5 amended: scanNext raises ScanNotInitialized iff no scan is
executing; given an executing scan (whose current page is a leaf and
whose next_entry is the sentinel or in range), it raises
IndexScanCompleted iff next_entry is the INVALID_ENTRY sentinel or the
key at next_entry violates the high predicate -- but in the violation
case next_entry is left unchanged, NOT set to INVALID_ENTRY; otherwise it
returns rids[next_entry], advancing next_entry (or marking the scan
exhausted), and moves to the right sibling when the current leaf is
exhausted. -/
theorem scanNext_spec (st : BTreeState) (E : List (Int × RecordId))
    (sib : Int) (hdata : st.currentPageData = .leaf E sib) :
    ((scanNext st).1 = .error .ScanNotInit ↔ st.scanExecuting = false)
    ∧ (st.scanExecuting = true →
        ((scanNext st).1 = .error .IndexScanCompleted ↔
          (st.nextEntry = INVALID_KEY_INDEX ∨
            (st.nextEntry ≠ INVALID_KEY_INDEX ∧ highViolated st E))))
    ∧ (st.scanExecuting = true → st.nextEntry ≠ INVALID_KEY_INDEX →
        highViolated st E → (scanNext st).2.nextEntry = st.nextEntry)
    ∧ (st.scanExecuting = true → st.nextEntry ≠ INVALID_KEY_INDEX →
        ¬ highViolated st E →
        (sib = INVALID_PAGE ∨ ∃ E2 s2, lookupNode st sib = .leaf E2 s2) →
        (scanNext st).1 = .ok (E.getD st.nextEntry.toNat dfltPair).2)
    ∧ (st.scanExecuting = true → st.nextEntry ≠ INVALID_KEY_INDEX →
        ¬ highViolated st E → st.nextEntry + 1 < (E.length : Int) →
        ((scanNext st).2.nextEntry = st.nextEntry + 1 ∨
         (scanNext st).2.nextEntry = INVALID_KEY_INDEX))
    ∧ (st.scanExecuting = true → st.nextEntry ≠ INVALID_KEY_INDEX →
        ¬ highViolated st E → ¬ (st.nextEntry + 1 < (E.length : Int)) →
        sib ≠ INVALID_PAGE →
        (scanNext st).2.currentPageNum = sib) := by
  cases hexec : st.scanExecuting with
  | false =>
      refine ⟨?_, ?_, ?_, ?_, ?_, ?_⟩ <;> simp [scanNext, hexec]
  | true =>
      by_cases hinv : st.nextEntry = INVALID_KEY_INDEX
      · refine ⟨?_, ?_, ?_, ?_, ?_, ?_⟩ <;> simp [scanNext, hexec, hinv]
      · have hmain : scanNext st =
            (if st.highOp = Operator.LT ∧
                st.highValInt ≤ (E.getD st.nextEntry.toNat dfltPair).1 then
              (Except.error NextErr.IndexScanCompleted,
                bufUnpin st st.currentPageNum)
            else if st.highOp = Operator.LTE ∧
                st.highValInt < (E.getD st.nextEntry.toNat dfltPair).1 then
              (Except.error NextErr.IndexScanCompleted,
                bufUnpin st st.currentPageNum)
            else scanNextAdvance { st with nextEntry := st.nextEntry + 1 }
              E sib (E.getD st.nextEntry.toNat dfltPair).2) := by
          simp only [scanNext]
          rw [hdata]
          rw [if_neg (by simp [hexec]), if_neg hinv]
        by_cases hv1 : st.highOp = Operator.LT ∧
            st.highValInt ≤ (E.getD st.nextEntry.toNat dfltPair).1
        · refine ⟨?_, ?_, ?_, ?_, ?_, ?_⟩
          · rw [hmain, if_pos hv1]
            exact iff_of_false (by simp) (by simp [hexec])
          · intro _
            rw [hmain, if_pos hv1]
            exact iff_of_true rfl (Or.inr ⟨hinv, Or.inl hv1⟩)
          · intro _ _ _
            rw [hmain, if_pos hv1]
            simp [bufUnpin]
          · intro _ _ hnv _
            exact absurd (Or.inl hv1) hnv
          · intro _ _ hnv _
            exact absurd (Or.inl hv1) hnv
          · intro _ _ hnv _ _
            exact absurd (Or.inl hv1) hnv
        · by_cases hv2 : st.highOp = Operator.LTE ∧
              st.highValInt < (E.getD st.nextEntry.toNat dfltPair).1
          · refine ⟨?_, ?_, ?_, ?_, ?_, ?_⟩
            · rw [hmain, if_neg hv1, if_pos hv2]
              exact iff_of_false (by simp) (by simp [hexec])
            · intro _
              rw [hmain, if_neg hv1, if_pos hv2]
              exact iff_of_true rfl (Or.inr ⟨hinv, Or.inr hv2⟩)
            · intro _ _ _
              rw [hmain, if_neg hv1, if_pos hv2]
              simp [bufUnpin]
            · intro _ _ hnv _
              exact absurd (Or.inr hv2) hnv
            · intro _ _ hnv _
              exact absurd (Or.inr hv2) hnv
            · intro _ _ hnv _ _
              exact absurd (Or.inr hv2) hnv
          · have hnviol : ¬ highViolated st E := by
              intro hc
              rcases hc with hc | hc
              · exact hv1 hc
              · exact hv2 hc
            refine ⟨?_, ?_, ?_, ?_, ?_, ?_⟩
            · rw [hmain, if_neg hv1, if_neg hv2]
              rcases scanNextAdvance_ok_or_stuck
                  { st with nextEntry := st.nextEntry + 1 } E sib
                  ((E.getD st.nextEntry.toNat dfltPair).2) with hc | hc <;>
                rw [hc] <;> exact iff_of_false (by simp) (by simp [hexec])
            · intro _
              rw [hmain, if_neg hv1, if_neg hv2]
              refine iff_of_false ?_ ?_
              · rcases scanNextAdvance_ok_or_stuck
                    { st with nextEntry := st.nextEntry + 1 } E sib
                    ((E.getD st.nextEntry.toNat dfltPair).2) with hc | hc <;>
                  rw [hc] <;> simp
              · rintro (h | ⟨-, hviol⟩)
                · exact hinv h
                · exact hnviol hviol
            · intro _ _ hviol
              exact absurd hviol hnviol
            · intro _ _ _ hsib
              rw [hmain, if_neg hv1, if_neg hv2]
              refine scanNextAdvance_ok _ E sib _ ?_
              rcases hsib with hs | ⟨E2, s2, hl⟩
              · exact Or.inl hs
              · exact Or.inr ⟨E2, s2, hl⟩
            · intro _ _ _ hlt
              rw [hmain, if_neg hv1, if_neg hv2]
              unfold scanNextAdvance
              dsimp only
              rw [if_pos (by exact hlt)]
              split
              · split
                · right; rfl
                · left; rfl
              · split
                · split
                  · right; rfl
                  · left; rfl
                · left; rfl
            · intro _ _ _ hge hsibne
              rw [hmain, if_neg hv1, if_neg hv2]
              unfold scanNextAdvance scanNextSib
              dsimp only
              rw [if_neg (by exact hge), if_neg hsibne]
              split
              · split
                · split <;> simp [bufUnpin, readPage]
                · split
                  · split <;> simp [bufUnpin, readPage]
                  · simp [bufUnpin, readPage]
              · simp [readPage]

/-- Witness for the C5 amended theorem at the c5State input. -/
theorem scanNext_spec_witness :
    (((scanNext c5State).1 = .error .ScanNotInit ↔
        c5State.scanExecuting = false)
    ∧ (c5State.scanExecuting = true →
        ((scanNext c5State).1 = .error .IndexScanCompleted ↔
          (c5State.nextEntry = INVALID_KEY_INDEX ∨
            (c5State.nextEntry ≠ INVALID_KEY_INDEX ∧
              highViolated c5State [(10, ⟨2, 2⟩)]))))
    ∧ (c5State.scanExecuting = true →
        c5State.nextEntry ≠ INVALID_KEY_INDEX →
        highViolated c5State [(10, ⟨2, 2⟩)] →
        (scanNext c5State).2.nextEntry = c5State.nextEntry)
    ∧ (c5State.scanExecuting = true →
        c5State.nextEntry ≠ INVALID_KEY_INDEX →
        ¬ highViolated c5State [(10, ⟨2, 2⟩)] →
        (INVALID_PAGE = INVALID_PAGE ∨
          ∃ E2 s2, lookupNode c5State INVALID_PAGE = .leaf E2 s2) →
        (scanNext c5State).1 =
          .ok (([(10, ⟨2, 2⟩)] :
            List (Int × RecordId)).getD c5State.nextEntry.toNat dfltPair).2)
    ∧ (c5State.scanExecuting = true →
        c5State.nextEntry ≠ INVALID_KEY_INDEX →
        ¬ highViolated c5State [(10, ⟨2, 2⟩)] →
        c5State.nextEntry + 1 <
          (([(10, ⟨2, 2⟩)] : List (Int × RecordId)).length : Int) →
        ((scanNext c5State).2.nextEntry = c5State.nextEntry + 1 ∨
         (scanNext c5State).2.nextEntry = INVALID_KEY_INDEX))
    ∧ (c5State.scanExecuting = true →
        c5State.nextEntry ≠ INVALID_KEY_INDEX →
        ¬ highViolated c5State [(10, ⟨2, 2⟩)] →
        ¬ (c5State.nextEntry + 1 <
            (([(10, ⟨2, 2⟩)] : List (Int × RecordId)).length : Int)) →
        INVALID_PAGE ≠ INVALID_PAGE →
        (scanNext c5State).2.currentPageNum = INVALID_PAGE)) :=
  scanNext_spec c5State [(10, ⟨2, 2⟩)] INVALID_PAGE rfl

/-! ### C2: the leaf split -/

/-- btree.h insertLeaf, DOUBLE branch, split subcase, at the array level
(the STRING branch is structurally identical).  DOUBLE keys are modelled
as rationals: the concrete values used go only through comparisons, which
coincide with exact IEEE comparisons for them.  Unlike the INTEGER
branch, the original page is not rebuilt from the sorted sequence: the
source only assigns curLeafNode->len = middleKeyIndex, keeping the
original first middleKeyIndex entries. -/
def leafSplitCoreDouble (E : List (ℚ × RecordId)) (key : ℚ) (rid : RecordId) :
    List (ℚ × RecordId) × List (ℚ × RecordId) × ℚ :=
  let vec := sortPairs (E ++ [(key, rid)])
  let middleKeyIndex := vec.length / 2
  let middleKey := (vec.getD middleKeyIndex ((0 : ℚ), (⟨0, 0⟩ : RecordId))).1
  let newNode := buildNode (vec.drop middleKeyIndex)
  let leftNode := E.take middleKeyIndex
  (leftNode, newNode, middleKey)

/-- C2 counterexample: a full DOUBLE leaf [2.0, 3.0] (occupancy 2)
receiving 1.0.  The sorted sequence is [1, 2, 3] with m = 1, so the claim
says the original leaf keeps [(1, r3)]; the code instead keeps its old
first entry [(2, r1)], and the freshly inserted entry (1, r3) survives in
neither half of the split. -/
theorem leafSplitDouble_drops_entry :
    (leafSplitCoreDouble [((2 : ℚ), ⟨1, 1⟩), ((3 : ℚ), ⟨2, 2⟩)] 1 ⟨3, 3⟩).1 =
      [((2 : ℚ), ⟨1, 1⟩)] ∧
    (sortPairs ([((2 : ℚ), ⟨1, 1⟩), ((3 : ℚ), ⟨2, 2⟩)] ++
        [((1 : ℚ), ⟨3, 3⟩)])).take 1 = [((1 : ℚ), ⟨3, 3⟩)] ∧
    ((1 : ℚ), (⟨3, 3⟩ : RecordId)) ∉
      ((leafSplitCoreDouble [((2 : ℚ), ⟨1, 1⟩), ((3 : ℚ), ⟨2, 2⟩)] 1
          ⟨3, 3⟩).1 ++
       (leafSplitCoreDouble [((2 : ℚ), ⟨1, 1⟩), ((3 : ℚ), ⟨2, 2⟩)] 1
          ⟨3, 3⟩).2.1) := by
  decide

theorem getD_mem_drop {α : Type} (d : α) :
    ∀ (l : List α) (i : Nat), i < l.length → l.getD i d ∈ l.drop i := by
  intro l
  induction l with
  | nil => intro i h; simp at h
  | cons a t ih =>
      intro i h
      cases i with
      | zero => simp
      | succ n => simpa using ih n (by simpa using h)

/-- C2 amended: for the INTEGER branch, insertEntry into a full leaf
splits as claimed with m = (N + 1) / 2 over the (key, rid.page_number)
sorted sequence and correct sibling linkage and middle-key promotion,
except that the two halves are key-sorted permutations of the sorted
ranges [0..m) and [m..N+1) (the re-insertion loops reverse runs of equal
keys, so the ranges are kept exactly only when keys are distinct); the
middle key at index m remains in the right leaf and is the promoted key;
the new leaf inherits the old right sibling and the old leaf points to
the new page.  (The DOUBLE/STRING branches instead keep the original
first m entries in the old page, see the counterexample.) -/
theorem insertLeaf_split_spec (st : BTreeState) (pageNum : Int) (key : Int)
    (rid : RecordId) (E : List (Int × RecordId)) (sib : Int)
    (hlook : lookupNode st pageNum = .leaf E sib)
    (hfull : ¬ ((E.length : Int) < st.leafOccupancy))
    (hne : st.nextFreePage ≠ pageNum) :
    (insertLeaf st pageNum key rid).2.1 = true
    ∧ (insertLeaf st pageNum key rid).2.2.2 = st.nextFreePage
    ∧ (sortPairs (E ++ [(key, rid)])).Perm (E ++ [(key, rid)])
    ∧ (sortPairs (E ++ [(key, rid)])).Pairwise pairLe
    ∧ (insertLeaf st pageNum key rid).2.2.1 =
        ((sortPairs (E ++ [(key, rid)])).getD
          ((sortPairs (E ++ [(key, rid)])).length / 2) dfltPair).1
    ∧ lookupNode (insertLeaf st pageNum key rid).1 pageNum =
        .leaf (buildNode ((sortPairs (E ++ [(key, rid)])).take
          ((sortPairs (E ++ [(key, rid)])).length / 2))) st.nextFreePage
    ∧ lookupNode (insertLeaf st pageNum key rid).1 st.nextFreePage =
        .leaf (buildNode ((sortPairs (E ++ [(key, rid)])).drop
          ((sortPairs (E ++ [(key, rid)])).length / 2))) sib
    ∧ (buildNode ((sortPairs (E ++ [(key, rid)])).take
        ((sortPairs (E ++ [(key, rid)])).length / 2))).Perm
        ((sortPairs (E ++ [(key, rid)])).take
          ((sortPairs (E ++ [(key, rid)])).length / 2))
    ∧ (buildNode ((sortPairs (E ++ [(key, rid)])).take
        ((sortPairs (E ++ [(key, rid)])).length / 2))).Pairwise keyLe
    ∧ (buildNode ((sortPairs (E ++ [(key, rid)])).drop
        ((sortPairs (E ++ [(key, rid)])).length / 2))).Perm
        ((sortPairs (E ++ [(key, rid)])).drop
          ((sortPairs (E ++ [(key, rid)])).length / 2))
    ∧ (buildNode ((sortPairs (E ++ [(key, rid)])).drop
        ((sortPairs (E ++ [(key, rid)])).length / 2))).Pairwise keyLe
    ∧ ((sortPairs (E ++ [(key, rid)])).getD
        ((sortPairs (E ++ [(key, rid)])).length / 2) dfltPair).1 ∈
        (buildNode ((sortPairs (E ++ [(key, rid)])).drop
          ((sortPairs (E ++ [(key, rid)])).length / 2))).map Prod.fst := by
  have h1 : lookupNode (readPage st pageNum) pageNum = .leaf E sib := hlook
  have hlen : 0 < (sortPairs (E ++ [(key, rid)])).length := by
    rw [(sortPairs_perm (E ++ [(key, rid)])).length_eq]
    simp
  have hm : (sortPairs (E ++ [(key, rid)])).length / 2 <
      (sortPairs (E ++ [(key, rid)])).length :=
    Nat.div_lt_self hlen (by omega)
  have hres : insertLeaf st pageNum key rid =
      (bufUnpin
        (bufUnpin
          (setPage
            (setPage (allocPage (readPage st pageNum)).2 st.nextFreePage
              (.leaf (buildNode ((sortPairs (E ++ [(key, rid)])).drop
                ((sortPairs (E ++ [(key, rid)])).length / 2))) sib))
            pageNum
            (.leaf (buildNode ((sortPairs (E ++ [(key, rid)])).take
              ((sortPairs (E ++ [(key, rid)])).length / 2)))
              st.nextFreePage))
          st.nextFreePage)
        pageNum, true,
        ((sortPairs (E ++ [(key, rid)])).getD
          ((sortPairs (E ++ [(key, rid)])).length / 2) dfltPair).1,
        st.nextFreePage) := by
    simp only [insertLeaf]
    rw [h1]
    dsimp only
    rw [if_neg (show ¬ ((E.length : Int) <
      (readPage st pageNum).leafOccupancy) from hfull)]
    rfl
  refine ⟨by rw [hres], by rw [hres], sortPairs_perm _, sortPairs_sorted _,
    by rw [hres], ?_, ?_, buildNode_perm _, buildNode_sorted _,
    buildNode_perm _, buildNode_sorted _, ?_⟩
  · rw [hres]
    exact lookupNode_setPage_self _ pageNum _
  · rw [hres]
    exact (lookupNode_setPage_ne _ pageNum st.nextFreePage _ hne).trans
      (lookupNode_setPage_self _ st.nextFreePage _)
  · refine List.mem_map_of_mem Prod.fst ?_
    exact (buildNode_perm _).mem_iff.mpr (getD_mem_drop dfltPair _ _ hm)

/-- Witness for the C2 amended theorem: a full INTEGER leaf [1, 2]
(occupancy 2) receiving key 3. -/
theorem insertLeaf_split_spec_witness :
    (insertLeaf (rootLeafState 2 [(1, ⟨1, 1⟩), (2, ⟨2, 2⟩)]) 2 3
      ⟨3, 3⟩).2.1 = true
    ∧ (insertLeaf (rootLeafState 2 [(1, ⟨1, 1⟩), (2, ⟨2, 2⟩)]) 2 3
        ⟨3, 3⟩).2.2.2 = (rootLeafState 2 [(1, ⟨1, 1⟩), (2, ⟨2, 2⟩)]).nextFreePage
    ∧ (sortPairs ([(1, ⟨1, 1⟩), (2, ⟨2, 2⟩)] ++ [((3 : Int), (⟨3, 3⟩ : RecordId))])).Perm
        ([(1, ⟨1, 1⟩), (2, ⟨2, 2⟩)] ++ [((3 : Int), (⟨3, 3⟩ : RecordId))])
    ∧ (sortPairs ([(1, ⟨1, 1⟩), (2, ⟨2, 2⟩)] ++
        [((3 : Int), (⟨3, 3⟩ : RecordId))])).Pairwise pairLe
    ∧ (insertLeaf (rootLeafState 2 [(1, ⟨1, 1⟩), (2, ⟨2, 2⟩)]) 2 3
        ⟨3, 3⟩).2.2.1 =
        ((sortPairs ([(1, ⟨1, 1⟩), (2, ⟨2, 2⟩)] ++
          [((3 : Int), (⟨3, 3⟩ : RecordId))])).getD
          ((sortPairs ([(1, ⟨1, 1⟩), (2, ⟨2, 2⟩)] ++
            [((3 : Int), (⟨3, 3⟩ : RecordId))])).length / 2) dfltPair).1
    ∧ lookupNode (insertLeaf (rootLeafState 2 [(1, ⟨1, 1⟩), (2, ⟨2, 2⟩)]) 2 3
        ⟨3, 3⟩).1 2 =
        .leaf (buildNode ((sortPairs ([(1, ⟨1, 1⟩), (2, ⟨2, 2⟩)] ++
          [((3 : Int), (⟨3, 3⟩ : RecordId))])).take
          ((sortPairs ([(1, ⟨1, 1⟩), (2, ⟨2, 2⟩)] ++
            [((3 : Int), (⟨3, 3⟩ : RecordId))])).length / 2)))
          (rootLeafState 2 [(1, ⟨1, 1⟩), (2, ⟨2, 2⟩)]).nextFreePage
    ∧ lookupNode (insertLeaf (rootLeafState 2 [(1, ⟨1, 1⟩), (2, ⟨2, 2⟩)]) 2 3
        ⟨3, 3⟩).1 (rootLeafState 2 [(1, ⟨1, 1⟩), (2, ⟨2, 2⟩)]).nextFreePage =
        .leaf (buildNode ((sortPairs ([(1, ⟨1, 1⟩), (2, ⟨2, 2⟩)] ++
          [((3 : Int), (⟨3, 3⟩ : RecordId))])).drop
          ((sortPairs ([(1, ⟨1, 1⟩), (2, ⟨2, 2⟩)] ++
            [((3 : Int), (⟨3, 3⟩ : RecordId))])).length / 2))) INVALID_PAGE
    ∧ (buildNode ((sortPairs ([(1, ⟨1, 1⟩), (2, ⟨2, 2⟩)] ++
        [((3 : Int), (⟨3, 3⟩ : RecordId))])).take
        ((sortPairs ([(1, ⟨1, 1⟩), (2, ⟨2, 2⟩)] ++
          [((3 : Int), (⟨3, 3⟩ : RecordId))])).length / 2))).Perm
        ((sortPairs ([(1, ⟨1, 1⟩), (2, ⟨2, 2⟩)] ++
          [((3 : Int), (⟨3, 3⟩ : RecordId))])).take
          ((sortPairs ([(1, ⟨1, 1⟩), (2, ⟨2, 2⟩)] ++
            [((3 : Int), (⟨3, 3⟩ : RecordId))])).length / 2))
    ∧ (buildNode ((sortPairs ([(1, ⟨1, 1⟩), (2, ⟨2, 2⟩)] ++
        [((3 : Int), (⟨3, 3⟩ : RecordId))])).take
        ((sortPairs ([(1, ⟨1, 1⟩), (2, ⟨2, 2⟩)] ++
          [((3 : Int), (⟨3, 3⟩ : RecordId))])).length / 2))).Pairwise keyLe
    ∧ (buildNode ((sortPairs ([(1, ⟨1, 1⟩), (2, ⟨2, 2⟩)] ++
        [((3 : Int), (⟨3, 3⟩ : RecordId))])).drop
        ((sortPairs ([(1, ⟨1, 1⟩), (2, ⟨2, 2⟩)] ++
          [((3 : Int), (⟨3, 3⟩ : RecordId))])).length / 2))).Perm
        ((sortPairs ([(1, ⟨1, 1⟩), (2, ⟨2, 2⟩)] ++
          [((3 : Int), (⟨3, 3⟩ : RecordId))])).drop
          ((sortPairs ([(1, ⟨1, 1⟩), (2, ⟨2, 2⟩)] ++
            [((3 : Int), (⟨3, 3⟩ : RecordId))])).length / 2))
    ∧ (buildNode ((sortPairs ([(1, ⟨1, 1⟩), (2, ⟨2, 2⟩)] ++
        [((3 : Int), (⟨3, 3⟩ : RecordId))])).drop
        ((sortPairs ([(1, ⟨1, 1⟩), (2, ⟨2, 2⟩)] ++
          [((3 : Int), (⟨3, 3⟩ : RecordId))])).length / 2))).Pairwise keyLe
    ∧ ((sortPairs ([(1, ⟨1, 1⟩), (2, ⟨2, 2⟩)] ++
        [((3 : Int), (⟨3, 3⟩ : RecordId))])).getD
        ((sortPairs ([(1, ⟨1, 1⟩), (2, ⟨2, 2⟩)] ++
          [((3 : Int), (⟨3, 3⟩ : RecordId))])).length / 2) dfltPair).1 ∈
        (buildNode ((sortPairs ([(1, ⟨1, 1⟩), (2, ⟨2, 2⟩)] ++
          [((3 : Int), (⟨3, 3⟩ : RecordId))])).drop
          ((sortPairs ([(1, ⟨1, 1⟩), (2, ⟨2, 2⟩)] ++
            [((3 : Int), (⟨3, 3⟩ : RecordId))])).length / 2))).map Prod.fst :=
  insertLeaf_split_spec (rootLeafState 2 [(1, ⟨1, 1⟩), (2, ⟨2, 2⟩)]) 2 3
    ⟨3, 3⟩ [(1, ⟨1, 1⟩), (2, ⟨2, 2⟩)] INVALID_PAGE rfl (by decide) (by decide)

/-! ### C1: round-trip of insertEntry and the scan -/

/-- Decomposing drop at an in-bounds index, stated in getD terms. -/
theorem drop_eq_getD_cons {α : Type} (d : α) :
    ∀ (l : List α) (i : Nat), i < l.length →
      l.drop i = l.getD i d :: l.drop (i + 1) := by
  intro l
  induction l with
  | nil => intro i h; simp at h
  | cons a t ih =>
      intro i h
      cases i with
      | zero => simp
      | succ j =>
          have hj : j < t.length := by simpa using h
          have hrec := ih j hj
          simpa [List.drop_succ_cons, List.getD_cons_succ] using hrec

/-- scanAll yields nothing once nextEntry holds the INVALID sentinel. -/
theorem scanAll_of_invalid (fuel : Nat) (st : BTreeState)
    (h : st.nextEntry = INVALID_KEY_INDEX) : scanAll fuel st = [] := by
  cases fuel with
  | zero => rfl
  | succ n =>
      by_cases hx : st.scanExecuting = false
      · have hpair : scanNext st =
            (.error .ScanNotInit, bufUnpin st st.currentPageNum) := by
          simp [scanNext, hx]
        simp [scanAll, hpair]
      · have hpair : scanNext st =
            (.error .IndexScanCompleted, bufUnpin st st.currentPageNum) := by
          simp [scanNext, hx, h]
        simp [scanAll, hpair]

/-- On a root-leaf state with room, insertEntry inserts into the root
leaf's sorted entry array and restores the pin balance. -/
theorem insertEntry_rootLeafState (gK gP : Nat → Int) (fuel : Nat) (cap : Int)
    (E : List (Int × RecordId)) (key : Int) (rid : RecordId)
    (h : (E.length : Int) < cap) :
    insertEntry gK gP fuel (rootLeafState cap E) key rid =
      rootLeafState cap (insertKeyRidToKeyRidArray E key rid) := by
  simp [insertEntry, rootLeafState, readPage, lookupNode, setPage, assocSet,
    bufUnpin, h]

/-- Folding root-leaf inserts that all have room builds the in-order
repeated array insertion of the whole list. -/
theorem insertEntry_foldl_rootLeaf (gK gP : Nat → Int) (fuel : Nat) (cap : Int) :
    ∀ (ps E : List (Int × RecordId)),
      (E.length : Int) + (ps.length : Int) ≤ cap →
      ps.foldl (fun s p => insertEntry gK gP fuel s p.1 p.2)
        (rootLeafState cap E) =
      rootLeafState cap
        (ps.foldl (fun acc p => insertKeyRidToKeyRidArray acc p.1 p.2) E) := by
  intro ps
  induction ps with
  | nil => intro E _; rfl
  | cons p t ih =>
      intro E h
      have hlt : (E.length : Int) < cap := by
        simp only [List.length_cons] at h
        push_cast at h
        omega
      have hlen1 : (insertKeyRidToKeyRidArray E p.1 p.2).length =
          E.length + 1 := by
        simpa using (insertKeyRidToKeyRidArray_perm E p.1 p.2).length_eq
      have h2 : ((insertKeyRidToKeyRidArray E p.1 p.2).length : Int) +
          (t.length : Int) ≤ cap := by
        rw [hlen1]
        simp only [List.length_cons] at h
        push_cast at h ⊢
        omega
      simp only [List.foldl_cons]
      rw [insertEntry_rootLeafState gK gP fuel cap E p.1 p.2 hlt]
      exact ih (insertKeyRidToKeyRidArray E p.1 p.2) h2

/-- Behaviour of scanNextAdvance when the high operator is LTE and the
current leaf has no right sibling. -/
theorem scanNextAdvance_LTE (stA : BTreeState) (E : List (Int × RecordId))
    (out : RecordId) (j : Nat) (hv : Int)
    (hop : stA.highOp = .LTE) (hhv : stA.highValInt = hv)
    (hne : stA.nextEntry = (j : Int)) :
    scanNextAdvance stA E INVALID_PAGE out =
      if j < E.length then
        (.ok out,
          if hv < (E.getD j dfltPair).1
          then { stA with nextEntry := INVALID_KEY_INDEX } else stA)
      else
        (.ok out,
          bufUnpin { stA with nextEntry := INVALID_KEY_INDEX }
            stA.currentPageNum) := by
  by_cases hj : j < E.length
  · rw [if_pos hj]
    have hcond : stA.nextEntry < (E.length : Int) := by
      rw [hne]; omega
    have htn : stA.nextEntry.toNat = j := by
      rw [hne]; omega
    simp only [scanNextAdvance]
    rw [if_pos hcond]
    rw [if_neg (show ¬(stA.highOp = Operator.LT) from by rw [hop]; decide)]
    rw [if_pos hop]
    rw [htn, hhv]
  · rw [if_neg hj]
    have hcond : ¬(stA.nextEntry < (E.length : Int)) := by
      rw [hne]; omega
    simp only [scanNextAdvance]
    rw [if_neg hcond]
    rw [if_pos trivial]

/-- scanAll on a single-leaf cursor in the LTE regime collects exactly the
rids of the maximal prefix, from nextEntry on, of entries whose keys
satisfy the high bound. -/
theorem scanAll_singleLeaf (E : List (Int × RecordId)) (hv : Int) :
    ∀ (fuel : Nat), ∀ (i : Nat) (st : BTreeState),
      st.scanExecuting = true →
      st.currentPageData = .leaf E INVALID_PAGE →
      st.highOp = .LTE →
      st.highValInt = hv →
      st.nextEntry = (i : Int) →
      i < E.length →
      E.length - i < fuel →
      scanAll fuel st =
        ((E.drop i).takeWhile (fun p => decide (p.1 ≤ hv))).map Prod.snd := by
  intro fuel
  induction fuel with
  | zero => intro i st _ _ _ _ _ _ hfu; omega
  | succ n ih =>
      intro i st hexec hdata hop hhv hne hi hfu
      have hninv : ¬(st.nextEntry = INVALID_KEY_INDEX) := by
        rw [hne]; simp only [INVALID_KEY_INDEX]; omega
      have htn : st.nextEntry.toNat = i := by rw [hne]; omega
      have hmain : scanNext st =
          (if st.highOp = Operator.LT ∧
              st.highValInt ≤ (E.getD st.nextEntry.toNat dfltPair).1 then
            (Except.error NextErr.IndexScanCompleted,
              bufUnpin st st.currentPageNum)
          else if st.highOp = Operator.LTE ∧
              st.highValInt < (E.getD st.nextEntry.toNat dfltPair).1 then
            (Except.error NextErr.IndexScanCompleted,
              bufUnpin st st.currentPageNum)
          else scanNextAdvance { st with nextEntry := st.nextEntry + 1 }
            E INVALID_PAGE (E.getD st.nextEntry.toNat dfltPair).2) := by
        simp only [scanNext]
        rw [hdata]
        rw [if_neg (by simp [hexec]), if_neg hninv]
      rw [htn] at hmain
      have hLT : ¬(st.highOp = Operator.LT ∧
          st.highValInt ≤ (E.getD i dfltPair).1) := by
        rintro ⟨hc, -⟩
        exact absurd (hop.symm.trans hc) (by decide)
      by_cases hkey : hv < (E.getD i dfltPair).1
      · have hpair : scanNext st =
            (.error .IndexScanCompleted, bufUnpin st st.currentPageNum) := by
          rw [hmain, if_neg hLT, if_pos ⟨hop, by rw [hhv]; exact hkey⟩]
        have hL : scanAll (n + 1) st = [] := by
          simp only [scanAll]
          rw [hpair]
        rw [hL]
        rw [drop_eq_getD_cons dfltPair E i hi]
        rw [List.takeWhile_cons]
        rw [if_neg (show ¬((fun p : Int × RecordId =>
            decide (p.1 ≤ hv)) (E.getD i dfltPair) = true) from by
          simp only [decide_eq_true_eq]
          exact not_le.mpr hkey)]
        rfl
      · have hkle : (E.getD i dfltPair).1 ≤ hv := le_of_not_lt hkey
        have hpair : scanNext st =
            scanNextAdvance { st with nextEntry := st.nextEntry + 1 } E
              INVALID_PAGE (E.getD i dfltPair).2 := by
          rw [hmain, if_neg hLT,
            if_neg (by rintro ⟨-, hc⟩; rw [hhv] at hc; exact hkey hc)]
        have hne2 : ({ st with nextEntry := st.nextEntry + 1 } :
            BTreeState).nextEntry = ((i + 1 : Nat) : Int) := by
          show st.nextEntry + 1 = ((i + 1 : Nat) : Int)
          rw [hne]; omega
        have hadv := scanNextAdvance_LTE
          { st with nextEntry := st.nextEntry + 1 } E
          ((E.getD i dfltPair).2) (i + 1) hv hop hhv hne2
        by_cases hlt : i + 1 < E.length
        · rw [if_pos hlt] at hadv
          by_cases hv2 : hv < (E.getD (i + 1) dfltPair).1
          · rw [if_pos hv2] at hadv
            have hsn := hpair.trans hadv
            have hL : scanAll (n + 1) st =
                (E.getD i dfltPair).2 ::
                  scanAll n { { st with nextEntry := st.nextEntry + 1 } with
                    nextEntry := INVALID_KEY_INDEX } := by
              simp only [scanAll]
              rw [hsn]
            rw [hL, scanAll_of_invalid n _ rfl]
            rw [drop_eq_getD_cons dfltPair E i hi, List.takeWhile_cons]
            rw [if_pos (show ((fun p : Int × RecordId =>
                decide (p.1 ≤ hv)) (E.getD i dfltPair) = true) from by
              simp only [decide_eq_true_eq]
              exact hkle)]
            rw [drop_eq_getD_cons dfltPair E (i + 1) hlt, List.takeWhile_cons]
            rw [if_neg (show ¬((fun p : Int × RecordId =>
                decide (p.1 ≤ hv)) (E.getD (i + 1) dfltPair) = true) from by
              simp only [decide_eq_true_eq]
              exact not_le.mpr hv2)]
            rfl
          · rw [if_neg hv2] at hadv
            have hsn := hpair.trans hadv
            have hL : scanAll (n + 1) st =
                (E.getD i dfltPair).2 ::
                  scanAll n { st with nextEntry := st.nextEntry + 1 } := by
              simp only [scanAll]
              rw [hsn]
            rw [hL]
            rw [ih (i + 1) { st with nextEntry := st.nextEntry + 1 } hexec
              hdata hop hhv hne2 hlt (by omega)]
            rw [drop_eq_getD_cons dfltPair E i hi, List.takeWhile_cons]
            rw [if_pos (show ((fun p : Int × RecordId =>
                decide (p.1 ≤ hv)) (E.getD i dfltPair) = true) from by
              simp only [decide_eq_true_eq]
              exact hkle)]
            rfl
        · rw [if_neg hlt] at hadv
          have hsn := hpair.trans hadv
          have hL : scanAll (n + 1) st =
              (E.getD i dfltPair).2 ::
                scanAll n (bufUnpin
                  { { st with nextEntry := st.nextEntry + 1 } with
                    nextEntry := INVALID_KEY_INDEX }
                  ({ st with nextEntry := st.nextEntry + 1 } :
                    BTreeState).currentPageNum) := by
            simp only [scanAll]
            rw [hsn]
          rw [hL, scanAll_of_invalid n _ rfl]
          rw [drop_eq_getD_cons dfltPair E i hi]
          rw [List.drop_eq_nil_of_le (show E.length ≤ i + 1 by omega)]
          rw [List.takeWhile_cons]
          rw [if_pos (show ((fun p : Int × RecordId =>
              decide (p.1 ≤ hv)) (E.getD i dfltPair) = true) from by
            simp only [decide_eq_true_eq]
            exact hkle)]
          rfl

/-- startScan on a root-leaf state, GTE/LTE operators and a low value
found in the leaf: it succeeds, records the scan members, caches the leaf
in currentPageData, sets nextEntry to the found index and leaves no page
pinned. -/
theorem startScan_rootLeaf_found (sfuel : Nat) (E : List (Int × RecordId))
    (k : Int) (nf ne cpn : Int) (cpd : NodeInt) (lop hop : Operator)
    (lvi hvi lo no : Int) (i : Nat)
    (hfind : scanLowIdx .GTE k E = some i) :
    startScan sfuel
      (⟨[(2, .leaf E INVALID_PAGE)], nf, 2, true, false, ne, cpn, cpd,
        lop, hop, lvi, hvi, lo, no, []⟩ : BTreeState) k .GTE k .LTE =
      (.ok,
        ⟨[(2, .leaf E INVALID_PAGE)], nf, 2, true, true, (i : Int), 2,
          .leaf E INVALID_PAGE, .GTE, .LTE, k, k, lo, no, []⟩) := by
  have hni : ¬(((i : Int)) = INVALID_KEY_INDEX) := by
    simp only [INVALID_KEY_INDEX]; omega
  simp [startScan, startScanSearch, readPage, bufUnpin, lookupNode,
    List.lookup, hfind, hni]

/-- C1 (amended, root-leaf regime): as long as every insert finds room in
the root leaf, the round-trip holds: after folding the inserts into a
fresh index, start_scan(k, GTE, k, LTE) succeeds and repeated scan_next
yields the rid of every pair (k, r) that was inserted. -/
theorem roundtrip_of_rootLeaf_inserts (gK gP : Nat → Int) (ifuel sfuel : Nat)
    (cap : Int) (ps : List (Int × RecordId)) (k : Int) (r : RecordId)
    (hmem : (k, r) ∈ ps) (hlen : (ps.length : Int) ≤ cap) :
    (startScan sfuel
        (ps.foldl (fun s p => insertEntry gK gP ifuel s p.1 p.2)
          (initState cap)) k .GTE k .LTE).1 = .ok
    ∧ r ∈ scanAll (ps.length + 1)
        (startScan sfuel
          (ps.foldl (fun s p => insertEntry gK gP ifuel s p.1 p.2)
            (initState cap)) k .GTE k .LTE).2 := by
  have hfold : ps.foldl (fun s p => insertEntry gK gP ifuel s p.1 p.2)
      (initState cap) = rootLeafState cap (buildNode ps) := by
    have hbase := insertEntry_foldl_rootLeaf gK gP ifuel cap ps []
      (by simpa using hlen)
    simpa [initState, buildNode] using hbase
  have hmemE : (k, r) ∈ buildNode ps := (buildNode_perm ps).mem_iff.mpr hmem
  have hsorted : (buildNode ps).Pairwise keyLe := buildNode_sorted ps
  have hfound : ∃ i, findFirstIdx
      (fun p : Int × RecordId => decide (k ≤ p.1)) (buildNode ps) = some i :=
    findFirstIdx_isSome_of_mem _ (buildNode ps) (k, r) hmemE (by simp)
  rcases hfound with ⟨i, hfind⟩
  have hfind2 : scanLowIdx .GTE k (buildNode ps) = some i := hfind
  have hi : i < (buildNode ps).length := findFirstIdx_some_lt _ _ i hfind
  have hscan : startScan sfuel (rootLeafState cap (buildNode ps)) k
      .GTE k .LTE =
      (.ok,
        ⟨[(2, .leaf (buildNode ps) INVALID_PAGE)], 3, 2, true, true,
          (i : Int), 2, .leaf (buildNode ps) INVALID_PAGE, .GTE, .LTE,
          k, k, cap, cap, []⟩) :=
    startScan_rootLeaf_found sfuel (buildNode ps) k 3 INVALID_KEY_INDEX 0
      (.leaf [] INVALID_PAGE) .GT .LT 0 0 cap cap i hfind2
  have hlenE : (buildNode ps).length = ps.length := buildNode_length ps
  constructor
  · rw [hfold, hscan]
  · rw [hfold, hscan]
    dsimp only
    rw [scanAll_singleLeaf (buildNode ps) k (ps.length + 1) i _ rfl rfl rfl
      rfl rfl hi (by omega)]
    have hdropmem : (k, r) ∈ (buildNode ps).drop i :=
      mem_drop_of_findFirstIdx k r (buildNode ps) i hfind hmemE
    have hdropsorted : ((buildNode ps).drop i).Pairwise keyLe :=
      hsorted.sublist (List.drop_sublist i _)
    have htk := mem_takeWhile_of_sorted k r ((buildNode ps).drop i)
      hdropsorted hdropmem
    exact List.mem_map_of_mem Prod.snd htk

/-- Witness for the amended C1 theorem at concrete inputs: two inserts
into an empty index of capacity 2, then scanning for the second key. -/
theorem roundtrip_of_rootLeaf_inserts_witness :
    ((3, (⟨2, 2⟩ : RecordId)) ∈
        [((5 : Int), (⟨1, 1⟩ : RecordId)), (3, ⟨2, 2⟩)]) ∧
    (([((5 : Int), (⟨1, 1⟩ : RecordId)), (3, ⟨2, 2⟩)].length : Int) ≤ 2) ∧
    ((startScan 1
        ([((5 : Int), (⟨1, 1⟩ : RecordId)), (3, ⟨2, 2⟩)].foldl
          (fun s p => insertEntry g0 g0 0 s p.1 p.2) (initState 2))
        3 .GTE 3 .LTE).1 = .ok
      ∧ (⟨2, 2⟩ : RecordId) ∈ scanAll
          ([((5 : Int), (⟨1, 1⟩ : RecordId)), (3, ⟨2, 2⟩)].length + 1)
          (startScan 1
            ([((5 : Int), (⟨1, 1⟩ : RecordId)), (3, ⟨2, 2⟩)].foldl
              (fun s p => insertEntry g0 g0 0 s p.1 p.2) (initState 2))
            3 .GTE 3 .LTE).2) :=
  ⟨by decide, by decide, roundtrip_of_rootLeaf_inserts g0 g0 0 1 2
    [((5 : Int), (⟨1, 1⟩ : RecordId)), (3, ⟨2, 2⟩)] 3 ⟨2, 2⟩ (by decide)
    (by decide)⟩

/-- A two-level INTEGER tree (root internal node over two leaves) on which
the C1 round-trip fails for key INT_MAX. -/
def c1State : BTreeState where
  pages := [(2, .internal 1 [10] [3, 4]), (3, .leaf [(5, ⟨1, 1⟩)] 4),
            (4, .leaf [(10, ⟨2, 2⟩)] INVALID_PAGE)]
  nextFreePage := 5
  rootPageNum := 2
  isRootLeaf := false
  scanExecuting := false
  nextEntry := INVALID_KEY_INDEX
  currentPageNum := 0
  currentPageData := .leaf [] INVALID_PAGE
  lowOp := .GT
  highOp := .LT
  lowValInt := 0
  highValInt := 0
  leafOccupancy := 2
  nodeOccupancy := 2
  pins := []

/-- C1 (counterexample): inserting (INT_MAX, (7, 7)) into the two-level
tree c1State leaves the index completely unchanged (the entry is silently
dropped by the routing loop), the subsequent
start_scan(INT_MAX, GTE, INT_MAX, LTE) returns normally, and no number of
scan_next calls ever yields the inserted rid. -/
theorem roundtrip_fails_at_intmax :
    insertEntry g0 g0 3 c1State INT_MAX ⟨7, 7⟩ = c1State ∧
    (startScan 3 c1State INT_MAX .GTE INT_MAX .LTE).1 = .ok ∧
    ∀ fuel : Nat, (⟨7, 7⟩ : RecordId) ∉
      scanAll fuel (startScan 3 c1State INT_MAX .GTE INT_MAX .LTE).2 := by
  refine ⟨by decide, by decide, ?_⟩
  intro fuel
  rw [scanAll_of_invalid fuel _ (by decide)]
  simp

end badgerdb
